import Mathlib

/-!
The markdown index renderer and the statistics reporter of arc-index.

A shallow embedding of `internal/export/index.go`, `internal/cmd/rebuild.go` and
`internal/cmd/stats.go`.

Modelling conventions

* A Go `string` is an immutable sequence of bytes; `len` counts bytes and `s[:n]` slices
  bytes.  It is modelled by `GoString`, a list of bytes, and a Go string literal by the
  UTF-8 encoding of the same literal (`go "..."`).
* A Go function returning `(value, error)` returns a pair whose second component is an
  `Option GoError`; `none` is the `nil` error.
* The database is a value of type `DB`: the three tables of the schema, an oracle that
  says how each query round trip goes wrong (if it does) and the number of queries issued
  so far.  Code that talks to the database passes the `DB` along explicitly.
* Library routines the code calls (`fmt.Sprintf`, `strings.Join`, `json.Unmarshal`,
  `time.Parse` with the RFC 3339 layout, `database/sql` cursors, `os.WriteFile`) are modelled
  by executable definitions that follow the documented behaviour of the Go standard library
  for the call shapes used in this repository.
-/

namespace ArcIndex

/-! ## Go strings -/

/-- One byte. -/
abbrev Byte := Fin 256

/-- A Go `string`: a sequence of bytes, not necessarily valid UTF-8. -/
abbrev GoString := List Byte

/-- The Go string denoted by a string literal: its UTF-8 encoding. -/
def go (s : String) : GoString :=
  s.data.flatMap fun c => (String.utf8EncodeChar c).map fun b => (b.val : Fin 256)

/-- Builtin `len` on a string: the number of bytes. -/
def len (s : GoString) : Nat := s.length

/-- The UTF-8 encoding of the code point `r` (`utf8.EncodeRune`). -/
def encodeRune (r : Nat) : GoString :=
  (String.utf8EncodeChar (Char.ofNat r)).map fun b => (b.val : Fin 256)

/-- The replacement character U+FFFD, encoded. -/
def runeError : GoString := encodeRune 0xFFFD

/-- Whether `c` is an ASCII decimal digit. -/
def isDigit (c : Byte) : Bool := decide (48 ≤ c.val ∧ c.val ≤ 57)

/-! ## Errors -/

/-- A Go `error` value: a message, possibly wrapping a cause (`%w`). -/
inductive GoError where
  | mk (msg : GoString)
  | wrap (msg : GoString) (cause : GoError)
  deriving DecidableEq

/-- The `Error()` method: the message. -/
def GoError.Error : GoError → GoString
  | .mk m => m
  | .wrap m _ => m

/-- The `Unwrap()` method. -/
def GoError.Unwrap : GoError → Option GoError
  | .mk _ => none
  | .wrap _ c => some c

/-! ## `fmt` and `strings` -/

/-- An operand of a formatting call, tagged by the verb it is printed with. -/
inductive Arg where
  | s (v : GoString)
  | d (v : Int)
  | w (e : GoError)

/-- How an operand prints: a string as its bytes, an integer in decimal, an error as its
message. -/
def Arg.render : Arg → GoString
  | .s v => v
  | .d v => go (toString v)
  | .w e => e.Error

/-- The formatting loop of `fmt.Sprintf`: bytes of the format are copied, `%%` prints a
percent sign and any other verb prints the next operand (`%!v(MISSING)` when there is
none).  Only the verbs `%s`, `%d` and `%w` occur in this repository, each with an operand of
the matching type. -/
def Sprintf.run : GoString → List Arg → GoString
  | [], _ => []
  | c :: tail, args =>
    if c ≠ 37 then c :: Sprintf.run tail args
    else
      match tail with
      | [] => go "%!(NOVERB)"
      | v :: rest =>
        if v = 37 then 37 :: Sprintf.run rest args
        else
          match args with
          | a :: args => a.render ++ Sprintf.run rest args
          | [] => go "%!" ++ [v] ++ go "(MISSING)" ++ Sprintf.run rest []

/-- The call `fmt.Sprintf(format, args...)` with a literal format. -/
def Sprintf (format : String) (args : List Arg) : GoString :=
  Sprintf.run (go format) args

/-- The call `fmt.Errorf(format, err)` whose format ends in `%w`: the formatted message,
wrapping `err`. -/
def Errorf (format : String) (args : List Arg) (err : GoError) : GoError :=
  .wrap (Sprintf format (args ++ [.w err])) err

/-- The call `strings.Join(elems, sep)`. -/
def Join : List GoString → GoString → GoString
  | [], _ => []
  | [a], _ => a
  | a :: b :: rest, sep => a ++ sep ++ Join (b :: rest) sep

/-! ## `encoding/json`: decoding into a `[]string`

`json.Unmarshal(data, &arr)` first checks that `data` is one well-formed JSON text and
only then stores into `arr`.  A value that does not fit the target is skipped and reported
as an `UnmarshalTypeError` after decoding has been completed as well as possible. -/

/-- A parsed JSON value; strings are held unquoted. -/
inductive JSONValue where
  | null
  | bool (b : Bool)
  | number (raw : GoString)
  | string (s : GoString)
  | array (elems : List JSONValue)
  | object (members : List (GoString × JSONValue))

/-- The nesting limit of the scanner (`maxNestingDepth`). -/
def maxNestingDepth : Nat := 10000

/-- JSON white space: space, tab, carriage return, line feed. -/
def isSpace (c : Byte) : Bool := decide (c = 32 ∨ c = 9 ∨ c = 13 ∨ c = 10)

/-- Skips leading white space. -/
def skipSpace : GoString → GoString
  | [] => []
  | c :: rest => if isSpace c then skipSpace rest else c :: rest

/-- Skips leading decimal digits. -/
def skipDigits : GoString → GoString
  | [] => []
  | c :: rest => if isDigit c then skipDigits rest else c :: rest

/-- The value of a hexadecimal digit. -/
def hexVal (c : Byte) : Option Nat :=
  if 48 ≤ c.val ∧ c.val ≤ 57 then some (c.val - 48)
  else if 97 ≤ c.val ∧ c.val ≤ 102 then some (c.val - 97 + 10)
  else if 65 ≤ c.val ∧ c.val ≤ 70 then some (c.val - 65 + 10)
  else none

/-- The function `getu4`: the code unit of a `\uXXXX` escape at the front of `s`, `none`
when `s` does not start with one. -/
def getu4 (s : GoString) : Option Nat :=
  match s with
  | b0 :: b1 :: h0 :: h1 :: h2 :: h3 :: _ =>
    if b0 = 92 ∧ b1 = 117 then
      match hexVal h0, hexVal h1, hexVal h2, hexVal h3 with
      | some x0, some x1, some x2, some x3 => some (((x0 * 16 + x1) * 16 + x2) * 16 + x3)
      | _, _, _, _ => none
    else none
  | _ => none

/-- Whether `c` is a UTF-8 continuation byte. -/
def isCont (c : Byte) : Bool := decide (0x80 ≤ c.val ∧ c.val ≤ 0xBF)

/-- The width of the well-formed UTF-8 sequence at the front of `s`
(`utf8.DecodeRune`); `none` when the front byte starts no well-formed sequence, in which case
the decoder reports U+FFFD with width 1. -/
def decodeRuneSize (s : GoString) : Option Nat :=
  match s with
  | [] => none
  | b0 :: rest =>
    if b0.val < 0x80 then some 1
    else if b0.val < 0xC2 then none
    else if b0.val < 0xE0 then
      match rest with
      | b1 :: _ => if isCont b1 then some 2 else none
      | _ => none
    else if b0.val < 0xF0 then
      match rest with
      | b1 :: b2 :: _ =>
        let lo := if b0.val = 0xE0 then 0xA0 else 0x80
        let hi := if b0.val = 0xED then 0x9F else 0xBF
        if lo ≤ b1.val ∧ b1.val ≤ hi ∧ isCont b2 then some 3 else none
      | _ => none
    else if b0.val < 0xF5 then
      match rest with
      | b1 :: b2 :: b3 :: _ =>
        let lo := if b0.val = 0xF0 then 0x90 else 0x80
        let hi := if b0.val = 0xF4 then 0x8F else 0xBF
        if lo ≤ b1.val ∧ b1.val ≤ hi ∧ isCont b2 ∧ isCont b3 then some 4 else none
      | _ => none
    else none

/-- Prepends `pre` to the string part of a scanning result. -/
def consResult (pre : GoString) : Option (GoString × GoString) → Option (GoString × GoString)
  | some (s, rest) => some (pre ++ s, rest)
  | none => none

/-- Decodes a `\uXXXX` escape at the front of `s`: the bytes it stands for and the input
after it.  A high surrogate followed by the escape of a low surrogate combines with it into
one code point; any other surrogate becomes U+FFFD. -/
def unquoteU (s : GoString) : Option (GoString × GoString) :=
  match getu4 s with
  | none => none
  | some rr =>
    let rest := s.drop 6
    if 0xD800 ≤ rr ∧ rr < 0xE000 then
      match getu4 rest with
      | some rr1 =>
        if rr < 0xDC00 ∧ 0xDC00 ≤ rr1 ∧ rr1 < 0xE000 then
          some (encodeRune ((((rr - 0xD800) <<< 10) ||| (rr1 - 0xDC00)) + 0x10000), rest.drop 6)
        else some (runeError, rest)
      | none => some (runeError, rest)
    else some (encodeRune rr, rest)

/-- Decodes what stands at the front of the body of a string literal, the closing quote
apart: an escape sequence, an ASCII byte, a well-formed UTF-8 sequence, or a byte that is no
part of one, which becomes U+FFFD.  Returns the decoded bytes and the input after them;
`none` for a control character or an unknown escape. -/
def unquoteStep (s : GoString) : Option (GoString × GoString) :=
  match s with
  | [] => none
  | c :: rest =>
    if c = 92 then
      match rest with
      | [] => none
      | e :: rest1 =>
        if e = 34 ∨ e = 92 ∨ e = 47 then some ([e], rest1)
        else if e = 98 then some ([8], rest1)
        else if e = 102 then some ([12], rest1)
        else if e = 110 then some ([10], rest1)
        else if e = 114 then some ([13], rest1)
        else if e = 116 then some ([9], rest1)
        else if e = 117 then unquoteU (c :: rest)
        else none
    else if c.val < 0x20 then none
    else if c.val < 0x80 then some ([c], rest)
    else
      match decodeRuneSize (c :: rest) with
      | some n => some ((c :: rest).take n, (c :: rest).drop n)
      | none => some (runeError, rest)

/-- Scans the body of a string literal, the opening quote already consumed, and unquotes it
(`unquoteBytes`): returns the unquoted bytes and the input after the closing quote. -/
def unquote : Nat → GoString → Option (GoString × GoString)
  | 0, _ => none
  | _ + 1, [] => none
  | fuel + 1, c :: rest =>
    if c = 34 then some ([], rest)
    else
      match unquoteStep (c :: rest) with
      | none => none
      | some (pre, s) => consResult pre (unquote fuel s)

/-- Scans the exponent of a number, the `e` already consumed. -/
def scanExp (s : GoString) : Option GoString :=
  let s1 := match s with
    | c :: r => if c = 43 ∨ c = 45 then r else s
    | [] => s
  match s1 with
  | d :: r => if isDigit d then some (skipDigits r) else none
  | [] => none

/-- Scans what may follow the integer part of a number: a fraction and an exponent. -/
def scanFrac (s : GoString) : Option GoString :=
  match s with
  | c :: r =>
    if c = 46 then
      match r with
      | d :: r1 =>
        if isDigit d then
          match skipDigits r1 with
          | e :: r2 => if e = 101 ∨ e = 69 then scanExp r2 else some (e :: r2)
          | [] => some []
        else none
      | [] => none
    else if c = 101 ∨ c = 69 then scanExp r
    else some s
  | [] => some []

/-- Scans a number and returns the input after it. -/
def scanNumber (s : GoString) : Option GoString :=
  let s1 := match s with
    | c :: r => if c = 45 then r else s
    | [] => s
  match s1 with
  | c :: r =>
    if c = 48 then scanFrac r
    else if 49 ≤ c.val ∧ c.val ≤ 57 then scanFrac (skipDigits r)
    else none
  | [] => none

/-- Strips the literal `lit` from the front of `s`. -/
def stripLit (lit : GoString) (s : GoString) : Option GoString :=
  if lit.isPrefixOf s then some (s.drop lit.length) else none

/-- Parses a JSON value that is no array and no object: a string, a number or one of the
literals `true`, `false`, `null`. -/
def parseScalar (s : GoString) : Option (JSONValue × GoString) :=
  match s with
  | [] => none
  | c :: rest =>
    if c = 34 then
      match unquote (rest.length + 1) rest with
      | some (x, r) => some (.string x, r)
      | none => none
    else if c = 45 ∨ isDigit c then
      match scanNumber (c :: rest) with
      | some r => some (.number ((c :: rest).take ((c :: rest).length - r.length)), r)
      | none => none
    else if c = 116 then
      match stripLit (go "true") (c :: rest) with
      | some r => some (.bool true, r)
      | none => none
    else if c = 102 then
      match stripLit (go "false") (c :: rest) with
      | some r => some (.bool false, r)
      | none => none
    else if c = 110 then
      match stripLit (go "null") (c :: rest) with
      | some r => some (.null, r)
      | none => none
    else none

mutual
/-- Parses one JSON value at the front of the input, inside `depth` enclosing arrays and
objects. -/
def parseValue : Nat → Nat → GoString → Option (JSONValue × GoString)
  | 0, _, _ => none
  | _ + 1, _, [] => none
  | fuel + 1, depth, c :: rest =>
    if c = 123 then
      if maxNestingDepth < depth + 1 then none
      else
        match skipSpace rest with
        | [] => none
        | c1 :: r1 =>
          if c1 = 125 then some (.object [], r1)
          else
            match parseMembers fuel (depth + 1) (c1 :: r1) with
            | some (ms, r) => some (.object ms, r)
            | none => none
    else if c = 91 then
      if maxNestingDepth < depth + 1 then none
      else
        match skipSpace rest with
        | [] => none
        | c1 :: r1 =>
          if c1 = 93 then some (.array [], r1)
          else
            match parseElems fuel (depth + 1) (c1 :: r1) with
            | some (vs, r) => some (.array vs, r)
            | none => none
    else parseScalar (c :: rest)
/-- Parses the elements of an array from the front of an element up to the closing
bracket. -/
def parseElems : Nat → Nat → GoString → Option (List JSONValue × GoString)
  | 0, _, _ => none
  | fuel + 1, depth, s =>
    match parseValue fuel depth s with
    | none => none
    | some (v, r) =>
      match skipSpace r with
      | [] => none
      | c :: r1 =>
        if c = 44 then
          match parseElems fuel depth (skipSpace r1) with
          | some (vs, r2) => some (v :: vs, r2)
          | none => none
        else if c = 93 then some ([v], r1)
        else none
/-- Parses the members of an object from the front of a key up to the closing brace. -/
def parseMembers : Nat → Nat → GoString → Option (List (GoString × JSONValue) × GoString)
  | 0, _, _ => none
  | _ + 1, _, [] => none
  | fuel + 1, depth, q :: s =>
    if q = 34 then
      match unquote (s.length + 1) s with
      | none => none
      | some (key, r) =>
        match skipSpace r with
        | [] => none
        | colon :: r0 =>
          if colon = 58 then
            match parseValue fuel depth (skipSpace r0) with
            | none => none
            | some (v, r1) =>
              match skipSpace r1 with
              | [] => none
              | c :: r2 =>
                if c = 44 then
                  match parseMembers fuel depth (skipSpace r2) with
                  | some (ms, r3) => some ((key, v) :: ms, r3)
                  | none => none
                else if c = 125 then some ([(key, v)], r2)
                else none
          else none
    else none
end

/-- Parses `data` as one JSON text: white space, a value, white space, end of input.
`none` is a syntax error (`checkValid` fails). -/
def parseJSON (data : GoString) : Option JSONValue :=
  match parseValue (2 * data.length + 2) 0 (skipSpace data) with
  | some (v, rest) => if skipSpace rest = [] then some v else none
  | none => none

/-- What decoding a JSON value into one element of a `[]string` stores, and whether an
`UnmarshalTypeError` is saved: a JSON string is stored, `null` leaves the zero value and is
no error, any other value leaves the zero value and is a type error. -/
def storeString : JSONValue → GoString × Bool
  | .string s => (s, false)
  | .null => ([], false)
  | _ => ([], true)

/-- The syntax error of `json.Unmarshal`. -/
def errInvalidJSON : GoError := .mk (go "json: syntax error")

/-- The type error of `json.Unmarshal` into a `[]string`. -/
def errUnmarshalType : GoError := .mk (go "json: cannot unmarshal into Go value")

/-- The call `json.Unmarshal(data, &arr)` for `var arr []string`: the contents of `arr`
afterwards and the error returned.  Invalid JSON leaves `arr` untouched (`nil`); `null` sets
it to `nil`; an array stores one string per element; any other value is a type error and
leaves `arr` untouched. -/
def Unmarshal (data : GoString) : List GoString × Option GoError :=
  match parseJSON data with
  | none => ([], some errInvalidJSON)
  | some .null => ([], none)
  | some (.array elems) =>
    (elems.map fun v => (storeString v).1,
      if elems.any fun v => (storeString v).2 then some errUnmarshalType else none)
  | some _ => ([], some errUnmarshalType)

/-! ## `time.Parse(time.RFC3339, value)`

The layout is `2006-01-02T15:04:05Z07:00`.  The parser walks the layout: a four-digit
year, a two-digit month and day, an hour of one or two digits, two-digit minute and second,
an optional fractional second, and `Z` or a numeric offset `±hh:mm`; nothing may follow. -/

/-- A parsed time, presented in the zone offset that was parsed: the civil date and clock
fields and the offset in seconds east of UTC. -/
structure Time where
  year : Int
  month : Nat
  day : Nat
  hour : Nat
  min : Nat
  sec : Nat
  nsec : Int
  offset : Int
  deriving DecidableEq

/-- The `Year()` method: the year in which the time occurs, in the time's own zone. -/
def Time.Year (t : Time) : Int := t.year

/-- The function `leadingInt`: consumes the leading digits of `s`.  (Its overflow check
cannot trigger for the at most nine digits it is given here.) -/
def leadingInt : GoString → Nat → Nat × GoString
  | [], acc => (acc, [])
  | c :: r, acc => if isDigit c then leadingInt r (acc * 10 + (c.val - 48)) else (acc, c :: r)

/-- The function `atoi` of package `time`: an optional sign and digits up to the end. -/
def atoi (s : GoString) : Option Int :=
  let neg := decide (s.head? = some 45)
  let s1 := if s.head? = some 45 ∨ s.head? = some 43 then s.drop 1 else s
  let qr := leadingInt s1 0
  if qr.2 ≠ [] then none else some (if neg then -(qr.1 : Int) else (qr.1 : Int))

/-- The function `getnum`: a number of two digits, or of one digit unless `fixed`. -/
def getnum (s : GoString) (fixed : Bool) : Option (Nat × GoString) :=
  match s with
  | [] => none
  | a :: rest =>
    if isDigit a then
      match rest with
      | [] => if fixed then none else some (a.val - 48, rest)
      | b :: rest1 =>
        if isDigit b then some ((a.val - 48) * 10 + (b.val - 48), rest1)
        else if fixed then none
        else some (a.val - 48, rest)
    else none

/-- The function `skip` for a literal piece of the layout without spaces: the value must
start with it. -/
def skip : GoString → GoString → Option GoString
  | value, [] => some value
  | [], _ :: _ => none
  | v :: value, p :: pre => if v = p then skip value pre else none

/-- The function `isLeap`. -/
def isLeap (year : Int) : Bool := year % 4 == 0 && (year % 100 != 0 || year % 400 == 0)

/-- The function `daysIn`: the number of days of a month of a year. -/
def daysIn (month : Nat) (year : Int) : Nat :=
  if month = 2 then (if isLeap year then 29 else 28)
  else if month = 4 ∨ month = 6 ∨ month = 9 ∨ month = 11 then 30
  else 31

/-- The function `parseNanoseconds` on `value[:nbytes]`, a separator followed by digits. -/
def parseNanoseconds (value : GoString) (nbytes : Nat) : Option Int :=
  let nbytes := if 10 < nbytes then 10 else nbytes
  match atoi ((value.take nbytes).drop 1) with
  | none => none
  | some ns => if ns < 0 then none else some (ns * 10 ^ (10 - nbytes))

/-- The fractional second that may follow the seconds although the layout has none: a
period or comma and a run of digits. -/
def parseFraction (value : GoString) : Option (Int × GoString) :=
  match value with
  | sep :: d :: _ =>
    if (sep = 46 ∨ sep = 44) ∧ isDigit d then
      let n := 2 + ((value.drop 2).takeWhile isDigit).length
      match parseNanoseconds value n with
      | some ns => some (ns, value.drop n)
      | none => none
    else some (0, value)
  | _ => some (0, value)

/-- The layout element `Z07:00`: the letter `Z`, or a sign, two digits, a colon and two
digits. -/
def parseZone (value : GoString) : Option (Int × GoString) :=
  if value.head? = some 90 then some (0, value.drop 1)
  else if len value < 6 then none
  else if value.get? 3 ≠ some 58 then none
  else
    match getnum ((value.drop 1).take 2) true, getnum ((value.drop 4).take 2) true with
    | some (hr, _), some (mm, _) =>
      if 24 < hr ∨ 60 < mm then none
      else
        let zoneOffset : Int := ((hr * 60 + mm) * 60 : Nat)
        if value.head? = some 43 then some (zoneOffset, value.drop 6)
        else if value.head? = some 45 then some (-zoneOffset, value.drop 6)
        else none
    | _, _ => none

/-- The layout elements `-01-02`: the month, in range, and the day, whose range is checked
at the end. -/
def parseMonthDay (value : GoString) : Option (Nat × Nat × GoString) :=
  match skip value (go "-") with
  | none => none
  | some value =>
    match getnum value true with
    | none => none
    | some (month, value) =>
      if month ≤ 0 ∨ 12 < month then none
      else
        match skip value (go "-") with
        | none => none
        | some value =>
          match getnum value true with
          | none => none
          | some (day, value) => some (month, day, value)

/-- The layout elements `T15:04`: the hour and the minute, in range. -/
def parseHourMin (value : GoString) : Option (Nat × Nat × GoString) :=
  match skip value (go "T") with
  | none => none
  | some value =>
    match getnum value false with
    | none => none
    | some (hour, value) =>
      if 24 ≤ hour then none
      else
        match skip value (go ":") with
        | none => none
        | some value =>
          match getnum value true with
          | none => none
          | some (min, value) => if 60 ≤ min then none else some (hour, min, value)

/-- The layout element `:05`: the second, in range, and the fractional second that may
follow it. -/
def parseSec (value : GoString) : Option (Nat × Int × GoString) :=
  match skip value (go ":") with
  | none => none
  | some value =>
    match getnum value true with
    | none => none
    | some (sec, value) =>
      if 60 ≤ sec then none
      else
        match parseFraction value with
        | none => none
        | some (nsec, value) => some (sec, nsec, value)

/-- The call `time.Parse(time.RFC3339, value)`; `none` when it returns an error. -/
def timeParse (value : GoString) : Option Time :=
  if len value < 4 ∨ value.head?.all isDigit = false then none
  else
    match atoi (value.take 4) with
    | none => none
    | some year =>
      match parseMonthDay (value.drop 4) with
      | none => none
      | some (month, day, value) =>
        match parseHourMin value with
        | none => none
        | some (hour, min, value) =>
          match parseSec value with
          | none => none
          | some (sec, nsec, value) =>
            match parseZone value with
            | none => none
            | some (offset, value) =>
              if value ≠ [] then none
              else if day < 1 ∨ daysIn month year < day then none
              else
                some { year := year, month := month, day := day, hour := hour, min := min,
                       sec := sec, nsec := nsec, offset := offset }

/-! ## `internal/export/index.go` -/

/-- The type `sql.NullString`. -/
structure NullString where
  String : GoString
  Valid : Bool
  deriving DecidableEq

/-- One row of the item query. -/
structure itemRow where
  Slug : GoString
  Title : GoString
  AuthorsJSON : GoString
  Date : NullString
  deriving DecidableEq

/-- Decodes the stored author list, ignoring the decoding error. -/
def parseAuthors (jsonStr : GoString) : List GoString :=
  (Unmarshal jsonStr).1

/-- The author part of an index line. -/
def authorDisplay (authors : List GoString) : GoString :=
  if authors.length = 0 then go ""
  else if authors.length = 1 then authors.headD []
  else Sprintf "%s et al." [.s (authors.headD [])]

/-- The year part of an index line. -/
def yearFrom (dateStr : GoString) : GoString :=
  if dateStr = go "" then go ""
  else if len dateStr ≥ 4 then dateStr.take 4
  else
    match timeParse dateStr with
    | some t => Sprintf "%d" [.d t.Year]
    | none => go ""

/-- One line of the index. -/
def formatLine (it : itemRow) (tags : List GoString) : GoString :=
  let authors := parseAuthors it.AuthorsJSON
  let authStr := authorDisplay authors
  let yr := yearFrom it.Date.String
  Sprintf "- [%s](%s.md) - %s (%s) [%s]\n"
    [.s it.Title, .s it.Slug, .s authStr, .s yr, .s (Join tags (go ", "))]

/-! ## The store

Tables `items(id, slug, title, authors_json, type, date_published NULLABLE, created_at)`,
`tags(id, name)` and `item_tags(item_id, tag_id)`.  Text is compared byte by byte (the
binary collation), which on byte strings is the lexicographic order. -/

/-- A row of table `items`. -/
structure Item where
  id : Int
  slug : GoString
  title : GoString
  authors_json : GoString
  type : GoString
  date_published : Option GoString
  created_at : GoString
  deriving DecidableEq

/-- A row of table `tags`. -/
structure Tag where
  id : Int
  name : GoString
  deriving DecidableEq

/-- A row of table `item_tags`. -/
structure ItemTag where
  item_id : Int
  tag_id : Int
  deriving DecidableEq

/-- How one query round trip goes: well, or the query itself is refused, or the scan of the
row at index `n` fails, or the iteration breaks off after `n` rows. -/
inductive Fault where
  | healthy
  | query (e : GoError)
  | scan (n : Nat) (e : GoError)
  | iter (n : Nat) (e : GoError)
  deriving DecidableEq

/-- The database handle: the tables, the fault of the query with each sequence number and
the number of queries issued so far. -/
structure DB where
  items : List Item
  tags : List Tag
  item_tags : List ItemTag
  fault : Nat → Fault
  calls : Nat

/-- A result cursor (`*sql.Rows`): what each `Next`/`Scan` step yields in turn and what
`Err` reports once `Next` has returned false. -/
structure Rows (α : Type) where
  pending : List (Except GoError α)
  err : Option GoError

/-- The cursor over the result rows `result` under a fault, or the error of the query. -/
def Rows.ofFault {α : Type} (result : List α) : Fault → Except GoError (Rows α)
  | .healthy => .ok ⟨result.map .ok, none⟩
  | .query e => .error e
  | .scan n e =>
    .ok ⟨(result.take n).map .ok ++
      (match result.drop n with
        | [] => []
        | _ :: rest => .error e :: rest.map .ok), none⟩
  | .iter n e => .ok ⟨(result.take n).map .ok, some e⟩

/-- The call `db.Query` for a statement whose result rows over the tables are `result`:
the cursor or the error, and the handle afterwards. -/
def DB.Query {α : Type} (db : DB) (result : List α) : Except GoError (Rows α) × DB :=
  (Rows.ofFault result (db.fault db.calls), { db with calls := db.calls + 1 })

/-- The loop `for rows.Next() { Scan; append }` followed by `return out, rows.Err()`; a
failing scan returns `nil` and its error at once. -/
def scanLoop {α : Type} : List (Except GoError α) → Option GoError → List α →
    List α × Option GoError
  | [], err, out => (out, err)
  | .error e :: _, _, _ => ([], some e)
  | .ok r :: rest, err, out => scanLoop rest err (out ++ [r])

/-- The SQL expression `COALESCE(date_published, created_at)`. -/
def COALESCE (a : Option GoString) (b : GoString) : GoString :=
  match a with
  | some v => v
  | none => b

/-- The clause `ORDER BY COALESCE(date_published, created_at) DESC, slug ASC`: row `a` may
stand before row `b`. -/
def itemsOrder (a b : Item) : Prop :=
  COALESCE b.date_published b.created_at < COALESCE a.date_published a.created_at ∨
    (COALESCE a.date_published a.created_at = COALESCE b.date_published b.created_at ∧
      a.slug ≤ b.slug)

instance itemsOrder.decidable : DecidableRel itemsOrder := fun a b =>
  inferInstanceAs (Decidable
    (COALESCE b.date_published b.created_at < COALESCE a.date_published a.created_at ∨
      (COALESCE a.date_published a.created_at = COALESCE b.date_published b.created_at ∧
        a.slug ≤ b.slug)))

instance itemsOrder.isTotal : IsTotal Item itemsOrder where
  total a b := by
    unfold itemsOrder
    rcases lt_trichotomy (COALESCE a.date_published a.created_at)
      (COALESCE b.date_published b.created_at) with h | h | h
    · exact Or.inr (Or.inl h)
    · rcases le_total a.slug b.slug with hs | hs
      · exact Or.inl (Or.inr ⟨h, hs⟩)
      · exact Or.inr (Or.inr ⟨h.symm, hs⟩)
    · exact Or.inl (Or.inl h)

instance itemsOrder.isTrans : IsTrans Item itemsOrder where
  trans a b c := by
    unfold itemsOrder
    rintro (h1 | ⟨h1, s1⟩) (h2 | ⟨h2, s2⟩)
    · exact Or.inl (lt_trans h2 h1)
    · exact Or.inl (h2 ▸ h1)
    · exact Or.inl (h1 ▸ h2)
    · exact Or.inr ⟨h1.trans h2, le_trans s1 s2⟩

/-- The result of the item query of `fetchItems` over the tables. -/
def selectItems (db : DB) (typ : GoString) : List itemRow :=
  ((db.items.filter fun i => i.type = typ).insertionSort itemsOrder).map fun i =>
    { Slug := i.slug, Title := i.title, AuthorsJSON := i.authors_json,
      Date := ⟨COALESCE i.date_published i.created_at, true⟩ }

/-- The joined tag names of the tag query of `fetchTags`, before `ORDER BY`: one row for
every combination of a tag, a link and an item that satisfies the join conditions and the
`WHERE` clause. -/
def joinTags (db : DB) (slug : GoString) : List GoString :=
  db.tags.flatMap fun t =>
    (db.item_tags.filter fun it => it.tag_id = t.id).flatMap fun it =>
      (db.items.filter fun i => i.id = it.item_id ∧ i.slug = slug).map fun _ => t.name

/-- The result of the tag query of `fetchTags` over the tables: the joined names,
`ORDER BY t.name ASC`. -/
def selectTags (db : DB) (slug : GoString) : List GoString :=
  (joinTags db slug).insertionSort (· ≤ ·)

/-- Fetches the rows of the items of one type. -/
def fetchItems (db : DB) (typ : GoString) : (List itemRow × Option GoError) × DB :=
  match db.Query (selectItems db typ) with
  | (.error err, db) => (([], some err), db)
  | (.ok rows, db) => (scanLoop rows.pending rows.err [], db)

/-- Fetches the tag names of the item with a slug. -/
def fetchTags (db : DB) (slug : GoString) : (List GoString × Option GoError) × DB :=
  match db.Query (selectTags db slug) with
  | (.error err, db) => (([], some err), db)
  | (.ok rows, db) => (scanLoop rows.pending rows.err [], db)

/-- The loop `for _, it := range items` of `ExportIndex`: fetches the tags of each item,
dropping the error, and writes the item's line to the builder `b`. -/
def renderItems (db : DB) : List itemRow → GoString → GoString × DB
  | [], b => (b, db)
  | it :: rest, b =>
    let r := fetchTags db it.Slug
    let line := formatLine it r.1.1
    renderItems r.2 rest (b ++ line)

/-- Generates the markdown index of all research items. -/
def ExportIndex (db : DB) : (GoString × Option GoError) × DB :=
  let b := go "# Research Index\n\n"
  let b := b ++ go "## Papers\n"
  let papers := fetchItems db (go "paper")
  match papers.1.2 with
  | some err => ((go "", some err), papers.2)
  | none =>
    let r := renderItems papers.2 papers.1.1 b
    let b := r.1 ++ go "\n"
    let b := b ++ go "## Blog Posts\n"
    let blogs := fetchItems r.2 (go "article")
    match blogs.1.2 with
    | some err => ((go "", some err), blogs.2)
    | none =>
      let r := renderItems blogs.2 blogs.1.1 b
      let b := r.1 ++ go "\n"
      ((b, none), r.2)

/-! ## The commands: `internal/cmd/rebuild.go` and `internal/cmd/stats.go` -/

/-- The configuration of the SDK, as far as the commands read it. -/
structure Config where
  ResearchRoot : GoString

/-- The output formats of the SDK. -/
inductive OutputFormat where
  | OutputTable
  | OutputJSON
  | OutputYAML
  | OutputQuiet
  deriving DecidableEq

/-- The resolved output options: the answer of `opts.Is` for each format. -/
structure OutputOptions where
  Is : OutputFormat → Bool

/-- The counts that `stats` reports. -/
structure indexStats where
  Papers : Int
  Articles : Int
  Total : Int
  Tags : Int
  deriving DecidableEq

/-- What a command hands to a JSON or YAML encoder: the result map of `rebuild` or the
counts of `stats`. -/
inductive Payload where
  | result (path research status : GoString)
  | stats (s : indexStats)

/-- The library routines outside this repository that the commands call: path handling
and the structured encoders (the text an encoder writes for a payload and the error its
`Encode` returns). -/
structure Lib where
  filepathJoin : GoString → GoString → GoString
  filepathDir : GoString → GoString
  ExpandPath : GoString → GoString
  encode : OutputFormat → Payload → GoString × Option GoError

/-- How `os.WriteFile` goes wrong: the file cannot be opened, or the write breaks off after
`n` bytes. -/
inductive WriteFault where
  | openErr (e : GoError)
  | writeErr (n : Nat) (e : GoError)

/-- The file system: the directories made, the files with their contents (the latest
write of a path first) and the faults of directory creation and file writing per path. -/
structure FS where
  dirs : List GoString
  files : List (GoString × GoString)
  mkdirFault : GoString → Option GoError
  writeFault : GoString → Option WriteFault

/-- The call `os.MkdirAll(path, 0o755)`. -/
def FS.MkdirAll (fs : FS) (path : GoString) : Option GoError × FS :=
  match fs.mkdirFault path with
  | some e => (some e, fs)
  | none => (none, { fs with dirs := path :: fs.dirs })

/-- The call `os.WriteFile(name, data, 0o644)`. -/
def FS.WriteFile (fs : FS) (name : GoString) (data : GoString) : Option GoError × FS :=
  match fs.writeFault name with
  | some (.openErr e) => (some e, fs)
  | some (.writeErr n e) => (some e, { fs with files := (name, data.take n) :: fs.files })
  | none => (none, { fs with files := (name, data) :: fs.files })

/-- What a command acts on: the database handle, the file system and standard output. -/
structure World where
  db : DB
  fs : FS
  stdout : GoString

/-- The `rebuild` command. -/
def runRebuild (lib : Lib) (cfg : Config) (opts : OutputOptions) (outFile : GoString)
    (w : World) : Option GoError × World :=
  let outputPath := outFile
  let outputPath :=
    if outputPath = go "" then lib.filepathJoin cfg.ResearchRoot (go "_INDEX.md")
    else outputPath
  let outputPath := lib.ExpandPath outputPath
  let mk := w.fs.MkdirAll (lib.filepathDir outputPath)
  match mk.1 with
  | some err =>
    (some (Errorf "failed to create output directory: %w" [] err), { w with fs := mk.2 })
  | none =>
    let ex := ExportIndex w.db
    match ex.1.2 with
    | some err =>
      (some (Errorf "failed to generate index: %w" [] err), { w with db := ex.2, fs := mk.2 })
    | none =>
      let wr := mk.2.WriteFile outputPath ex.1.1
      match wr.1 with
      | some err =>
        (some (Errorf "failed to write index file to %s: %w" [.s outputPath] err),
          { w with db := ex.2, fs := wr.2 })
      | none =>
        let result := Payload.result outputPath cfg.ResearchRoot (go "rebuilt")
        if opts.Is .OutputJSON then
          let enc := lib.encode .OutputJSON result
          (enc.2, { db := ex.2, fs := wr.2, stdout := w.stdout ++ enc.1 })
        else if opts.Is .OutputYAML then
          let enc := lib.encode .OutputYAML result
          (enc.2, { db := ex.2, fs := wr.2, stdout := w.stdout ++ enc.1 })
        else if opts.Is .OutputQuiet then
          (none, { db := ex.2, fs := wr.2, stdout := w.stdout })
        else
          (none, { db := ex.2, fs := wr.2,
                   stdout := w.stdout ++
                     Sprintf "Index rebuilt successfully: %s\n" [.s outputPath] })

/-- The error `sql.ErrNoRows`. -/
def ErrNoRows : GoError := .mk (go "sql: no rows in result set")

/-- The calls `row := db.QueryRow(q); _ = row.Scan(&dest)` for a statement whose result
rows are `result`: the value of `dest` afterwards, the error of `Scan`, and the handle.
`Scan` stores the first row; when it returns an error `dest` keeps its value. -/
def DB.QueryRowScan (db : DB) (result : List Int) (dest : Int) :
    (Int × Option GoError) × DB :=
  match db.Query result with
  | (.error err, db) => ((dest, some err), db)
  | (.ok rows, db) =>
    match rows.pending with
    | [] => ((dest, some (rows.err.getD ErrNoRows)), db)
    | .error e :: _ => ((dest, some e), db)
    | .ok v :: _ => ((v, none), db)

/-- The statement `SELECT COUNT(*) FROM items WHERE type = ...`. -/
def countItemsOfType (db : DB) (typ : GoString) : Int :=
  ((db.items.filter fun i => i.type = typ).length : Nat)

/-- The statement `SELECT COUNT(*) FROM items`. -/
def countItems (db : DB) : Int := (db.items.length : Nat)

/-- The statement `SELECT COUNT(*) FROM tags`. -/
def countTags (db : DB) : Int := (db.tags.length : Nat)

/-- The `stats` command. -/
def runStats (lib : Lib) (opts : OutputOptions) (w : World) : Option GoError × World :=
  let stats : indexStats := { Papers := 0, Articles := 0, Total := 0, Tags := 0 }
  let r := w.db.QueryRowScan [countItemsOfType w.db (go "paper")] stats.Papers
  let stats := { stats with Papers := r.1.1 }
  let r := r.2.QueryRowScan [countItemsOfType r.2 (go "article")] stats.Articles
  let stats := { stats with Articles := r.1.1 }
  let r := r.2.QueryRowScan [countItems r.2] stats.Total
  let stats := { stats with Total := r.1.1 }
  let r := r.2.QueryRowScan [countTags r.2] stats.Tags
  let stats := { stats with Tags := r.1.1 }
  if opts.Is .OutputJSON then
    let enc := lib.encode .OutputJSON (.stats stats)
    (enc.2, { w with db := r.2, stdout := w.stdout ++ enc.1 })
  else if opts.Is .OutputYAML then
    let enc := lib.encode .OutputYAML (.stats stats)
    (enc.2, { w with db := r.2, stdout := w.stdout ++ enc.1 })
  else if opts.Is .OutputQuiet then
    (none, { w with db := r.2 })
  else
    let out := w.stdout ++ Sprintf "Papers:   %d\n" [.d stats.Papers]
    let out := out ++ Sprintf "Articles: %d\n" [.d stats.Articles]
    let out := out ++ Sprintf "Total:    %d\n" [.d stats.Total]
    let out := out ++ Sprintf "Tags:     %d\n" [.d stats.Tags]
    (none, { w with db := r.2, stdout := out })

/-! ## Auxiliary definitions for the statements -/

/-- The handle after `k` more queries. -/
def DB.after (db : DB) (k : Nat) : DB := { db with calls := db.calls + k }

/-- Whether the count query issued as query number `n` fails, that is, whether its
`Scan` returns an error. -/
def countFails (db : DB) (n : Nat) : Bool :=
  (({ db with calls := n }).QueryRowScan [0] 0).1.2.isSome

/-- The report of `stats` as the specification words it: each count is the number of
rows its statement counts, or 0 when its query fails; the four queries are issued in the
order papers, articles, total, tags. -/
def specStats (db : DB) : indexStats :=
  { Papers := if countFails db db.calls then 0
      else ((db.items.filter fun i => i.type = go "paper").length : Nat),
    Articles := if countFails db (db.calls + 1) then 0
      else ((db.items.filter fun i => i.type = go "article").length : Nat),
    Total := if countFails db (db.calls + 2) then 0 else (db.items.length : Nat),
    Tags := if countFails db (db.calls + 3) then 0 else (db.tags.length : Nat) }

/-- The number of days from 1970-01-01 to a civil date of the proleptic Gregorian
calendar. -/
def daysFromCivil (year : Int) (month day : Nat) : Int :=
  let y : Int := if month ≤ 2 then year - 1 else year
  let era : Int := y.fdiv 400
  let yoe : Int := y - era * 400
  let mp : Int := ((month + 9) % 12 : Nat)
  let doy : Int := (153 * mp + 2).fdiv 5 + (day : Int) - 1
  let doe : Int := yoe * 365 + yoe.fdiv 4 - yoe.fdiv 100 + doy
  era * 146097 + doe - 719468

/-- The `Unix()` method: the instant a time denotes, in seconds since
1970-01-01T00:00:00Z. -/
def Time.Unix (t : Time) : Int :=
  daysFromCivil t.year t.month t.day * 86400 + (t.hour : Int) * 3600 + (t.min : Int) * 60 +
    (t.sec : Int) - t.offset

/-- Folds the ASCII capital letters of a string to small letters. -/
def lowerASCII (s : GoString) : GoString :=
  s.map fun b => if 65 ≤ b.val ∧ b.val ≤ 90 then b + 32 else b

/-- Alphabetical order as the specification words it: names compare letter by letter
whatever the case of the letters. -/
def alphabeticalLE (a b : GoString) : Prop := lowerASCII a ≤ lowerASCII b

instance alphabeticalLE.decidable : DecidableRel alphabeticalLE := fun a b =>
  inferInstanceAs (Decidable (lowerASCII a ≤ lowerASCII b))

/-! ## Example stores -/

/-- The store of the end-to-end example: one paper with one author and one tag, no
article. -/
def exampleStore : DB :=
  { items := [⟨1, go "p1", go "T", go "[\"X\"]", go "paper", some (go "2022-01-01"),
               go "2024-03-03T10:00:00Z"⟩],
    tags := [⟨1, go "ml"⟩],
    item_tags := [⟨1, 1⟩],
    fault := fun _ => .healthy,
    calls := 0 }

/-- A store with three papers, two of which tie on the effective date, one of them through
its creation timestamp, and one article. -/
def orderStore : DB :=
  { items := [⟨1, go "b", go "B", go "[]", go "paper", none, go "2023-01-01"⟩,
              ⟨2, go "x", go "X", go "[]", go "article", some (go "2025-01-01"),
                go "2025-01-01"⟩,
              ⟨3, go "a", go "A", go "[]", go "paper", some (go "2023-01-01"),
                go "2024-09-09"⟩,
              ⟨4, go "c", go "C", go "[]", go "paper", some (go "2024-05-05"),
                go "2020-01-01"⟩],
    tags := [],
    item_tags := [],
    fault := fun _ => .healthy,
    calls := 0 }

/-- A store whose paper got its tags in the order b, a. -/
def tagStoreBA : DB :=
  { items := [⟨1, go "p1", go "T", go "[\"X\"]", go "paper", some (go "2022-01-01"),
               go "2024-03-03T10:00:00Z"⟩],
    tags := [⟨1, go "b"⟩, ⟨2, go "a"⟩],
    item_tags := [⟨1, 1⟩, ⟨1, 2⟩],
    fault := fun _ => .healthy,
    calls := 0 }

/-- The same paper with its tags inserted in the order a, b. -/
def tagStoreAB : DB :=
  { items := [⟨1, go "p1", go "T", go "[\"X\"]", go "paper", some (go "2022-01-01"),
               go "2024-03-03T10:00:00Z"⟩],
    tags := [⟨1, go "a"⟩, ⟨2, go "b"⟩],
    item_tags := [⟨1, 1⟩, ⟨1, 2⟩],
    fault := fun _ => .healthy,
    calls := 0 }

/-- The end-to-end store in which the second query of a run, the tag query of the only
paper, is refused. -/
def tagFaultStore : DB :=
  { exampleStore with
    fault := fun n => if n = 1 then .query (.mk (go "database is locked")) else .healthy }

/-- The end-to-end store in which the first query of a run, the paper query, is refused. -/
def itemFaultStore : DB :=
  { exampleStore with
    fault := fun n => if n = 0 then .query (.mk (go "database is locked")) else .healthy }

/-- The end-to-end store in which the third query of a run, the article query, is
refused. -/
def articleFaultStore : DB :=
  { exampleStore with
    fault := fun n => if n = 2 then .query (.mk (go "database is locked")) else .healthy }

/-- A store with two papers whose publication dates carry different zone offsets: the
paper `late` is dated 2023-05-01T23:00:00-05:00, which is 2023-05-02T04:00:00Z, the paper
`early` 2023-05-02T01:00:00Z, three hours before. -/
def zoneStore : DB :=
  { items := [⟨1, go "late", go "Late", go "[]", go "paper",
                some (go "2023-05-01T23:00:00-05:00"), go "2023-06-01T00:00:00Z"⟩,
              ⟨2, go "early", go "Early", go "[]", go "paper",
                some (go "2023-05-02T01:00:00Z"), go "2023-06-01T00:00:00Z"⟩],
    tags := [],
    item_tags := [],
    fault := fun _ => .healthy,
    calls := 0 }

/-- The end-to-end store whose paper got the tags ml, NLP, AI, robotics, in this order. -/
def mixedCaseStore : DB :=
  { exampleStore with
    tags := [⟨1, go "ml"⟩, ⟨2, go "NLP"⟩, ⟨3, go "AI"⟩, ⟨4, go "robotics"⟩],
    item_tags := [⟨1, 1⟩, ⟨1, 2⟩, ⟨1, 3⟩, ⟨1, 4⟩] }

/-- A store with 3 papers, 2 articles, 1 item of another type and 4 tags, in which the
queries whose sequence number satisfies `bad` are refused. -/
def statsStore (bad : Nat → Bool) : DB :=
  { items := [⟨1, go "p1", go "P1", go "[]", go "paper", none, go "2024-01-01"⟩,
              ⟨2, go "p2", go "P2", go "[]", go "paper", none, go "2024-01-02"⟩,
              ⟨3, go "a1", go "A1", go "[]", go "article", none, go "2024-01-03"⟩,
              ⟨4, go "p3", go "P3", go "[]", go "paper", none, go "2024-01-04"⟩,
              ⟨5, go "n1", go "N1", go "[]", go "note", none, go "2024-01-05"⟩,
              ⟨6, go "a2", go "A2", go "[]", go "article", none, go "2024-01-06"⟩],
    tags := [⟨1, go "a"⟩, ⟨2, go "b"⟩, ⟨3, go "c"⟩, ⟨4, go "d"⟩],
    item_tags := [],
    fault := fun n => if bad n then .query (.mk (go "database is locked")) else .healthy,
    calls := 0 }

/-- Path handling for the examples: paths are joined with a slash, every path lies in
directory `research` and expands to itself; the encoders write nothing. -/
def exampleLib : Lib :=
  { filepathJoin := fun a b => a ++ go "/" ++ b,
    filepathDir := fun _ => go "research",
    ExpandPath := fun p => p,
    encode := fun _ _ => (go "", none) }

/-- An empty file system without faults. -/
def emptyFS : FS :=
  { dirs := [], files := [], mkdirFault := fun _ => none, writeFault := fun _ => none }

/-- The world of the examples around a store: the empty file system, nothing printed. -/
def exampleWorld (db : DB) : World := { db := db, fs := emptyFS, stdout := go "" }

/-- The item row of the paper of the end-to-end example. -/
def exampleRow : itemRow :=
  { Slug := go "p1", Title := go "T", AuthorsJSON := go "[\"X\"]",
    Date := ⟨go "2022-01-01", true⟩ }

/-! ## Formatting: `formatLine`, `authorDisplay` -/

theorem Join_eq_intercalate (elems : List GoString) (sep : GoString) :
    Join elems sep = sep.intercalate elems := by
  induction elems with
  | nil => rfl
  | cons a rest ih =>
    cases rest with
    | nil => simp [Join, List.intercalate]
    | cons b rest =>
      simp only [Join, ih]
      simp [List.intercalate, List.intersperse]

theorem Sprintf_d (y : Int) : Sprintf "%d" [.d y] = go (toString y) := by
  show Arg.render (.d y) ++ [] = _
  simp [Arg.render]

theorem formatLine_eq (it : itemRow) (tags : List GoString) :
    formatLine it tags =
      go "- [" ++ it.Title ++ go "](" ++ it.Slug ++ go ".md) - " ++
        authorDisplay (parseAuthors it.AuthorsJSON) ++ go " (" ++ yearFrom it.Date.String ++
        go ") [" ++ (go ", ").intercalate tags ++ go "]\n" := by
  rw [← Join_eq_intercalate]
  simp only [List.append_assoc]
  rfl

/-- Claim C2: for every item row and every tag list, `formatLine` returns exactly
`"- [" ++ title ++ "](" ++ slug ++ ".md) - " ++ authorDisplay (parseAuthors authorsJSON) ++
" (" ++ yearFrom date ++ ") [" ++ tags joined by ", " ++ "]\n"`; with no tags the bracket
part is `[]`. -/
theorem formatLine_spec (it : itemRow) (tags : List GoString) :
    formatLine it tags =
        go "- [" ++ it.Title ++ go "](" ++ it.Slug ++ go ".md) - " ++
          authorDisplay (parseAuthors it.AuthorsJSON) ++ go " (" ++
          yearFrom it.Date.String ++ go ") [" ++ (go ", ").intercalate tags ++ go "]\n" ∧
      formatLine it [] =
        go "- [" ++ it.Title ++ go "](" ++ it.Slug ++ go ".md) - " ++
          authorDisplay (parseAuthors it.AuthorsJSON) ++ go " (" ++
          yearFrom it.Date.String ++ go ") []\n" := by
  refine ⟨formatLine_eq it tags, ?_⟩
  simp only [List.append_assoc]
  rfl

/-- Claim C3: `authorDisplay` returns the empty string for no author, the single name for
one author, and the first name followed by `" et al."` for two or more authors, whatever the
remaining names are; `["A", "B"]` gives `"A et al."`. -/
theorem authorDisplay_spec :
    authorDisplay [] = go "" ∧
      (∀ a : GoString, authorDisplay [a] = a) ∧
      (∀ (a b : GoString) (rest : List GoString),
        authorDisplay (a :: b :: rest) = a ++ go " et al.") ∧
      authorDisplay [go "A", go "B"] = go "A et al." := by
  refine ⟨rfl, fun a => rfl, fun a b rest => ?_, by decide⟩
  have h0 : (a :: b :: rest).length ≠ 0 := by simp
  have h1 : (a :: b :: rest).length ≠ 1 := by simp
  simp only [authorDisplay, if_neg h0, if_neg h1]
  rfl

/-! ## The year: `yearFrom` and `time.Parse` -/

theorem timeParse_year {value : GoString} {t : Time} (h : timeParse value = some t) :
    4 ≤ len value ∧ value.head?.all isDigit = true ∧ atoi (value.take 4) = some t.year := by
  unfold timeParse at h
  split at h
  · exact absurd h (by simp)
  · rename_i hc
    simp only [not_or, not_lt, Bool.not_eq_false] at hc
    refine ⟨hc.1, hc.2, ?_⟩
    split at h
    · exact absurd h (by simp)
    · rename_i year hy
      rw [hy]
      iterate 6 (split at h; · exact absurd h (by simp))
      simp only [Option.some.injEq] at h
      rw [← h]

set_option maxRecDepth 100000 in
theorem digit_render : ∀ a : Byte, isDigit a = true →
    (String.utf8EncodeChar (Nat.digitChar (a.val - 48))).map
      (fun b => (b.val : Fin 256)) = [a] := by
  decide

theorem isDigit_bounds {a : Byte} (h : isDigit a = true) : 48 ≤ a.val ∧ a.val ≤ 57 := by
  simpa [isDigit] using h

theorem toDigitsCore_step (f n : Nat) (ds : List Char) :
    Nat.toDigitsCore 10 (f + 1) n ds =
      if n / 10 = 0 then Nat.digitChar (n % 10) :: ds
      else Nat.toDigitsCore 10 f (n / 10) (Nat.digitChar (n % 10) :: ds) := rfl

theorem go_toString_int (n : Nat) :
    go (toString (n : Int)) =
      (Nat.toDigits 10 n).flatMap fun c =>
        (String.utf8EncodeChar c).map fun b => (b.val : Fin 256) := by
  rfl

theorem atoi_four {a b c d : Byte} {y : Int} (ha : isDigit a = true)
    (h : atoi [a, b, c, d] = some y) :
    isDigit b = true ∧ isDigit c = true ∧ isDigit d = true ∧
      y = ((((a.val - 48) * 10 + (b.val - 48)) * 10 + (c.val - 48)) * 10 +
        (d.val - 48) : Nat) := by
  have h45 : a ≠ 45 := by rintro rfl; exact absurd ha (by decide)
  have h43 : a ≠ 43 := by rintro rfl; exact absurd ha (by decide)
  simp only [atoi, List.head?_cons, Option.some.injEq, h45, h43, or_self, if_false,
    decide_False, leadingInt, ha, if_true] at h
  by_cases hb : isDigit b = true <;> by_cases hc : isDigit c = true <;>
    by_cases hd : isDigit d = true <;> simp [hb, hc, hd, leadingInt] at h
  exact ⟨hb, hc, hd, by omega⟩

theorem render_digits {a b c d : Byte} (ha : isDigit a = true) (hb : isDigit b = true)
    (hc : isDigit c = true) (hd : isDigit d = true) (n : Nat)
    (hn : n = (((a.val - 48) * 10 + (b.val - 48)) * 10 + (c.val - 48)) * 10 + (d.val - 48)) :
    (1000 ≤ n → go (toString (n : Int)) = [a, b, c, d]) ∧
      (n < 1000 → (go (toString (n : Int))).length < 4) := by
  have ba := isDigit_bounds ha
  have bb := isDigit_bounds hb
  have bc := isDigit_bounds hc
  have bd := isDigit_bounds hd
  have e0 : n % 10 = d.val - 48 := by omega
  have e1 : n / 10 % 10 = c.val - 48 := by omega
  have e2 : n / 10 / 10 % 10 = b.val - 48 := by omega
  have e3 : n / 10 / 10 / 10 % 10 = a.val - 48 := by omega
  have e4 : n / 10 / 10 / 10 / 10 = 0 := by omega
  rw [go_toString_int, Nat.toDigits]
  constructor
  · intro h
    obtain ⟨k, hk⟩ : ∃ k, n + 1 = k + 4 := ⟨n - 3, by omega⟩
    have f1 : n / 10 ≠ 0 := by omega
    have f2 : n / 10 / 10 ≠ 0 := by omega
    have f3 : n / 10 / 10 / 10 ≠ 0 := by omega
    rw [hk]
    simp only [toDigitsCore_step, if_neg f1, if_neg f2, if_neg f3, if_pos e4, e0, e1, e2, e3,
      List.flatMap_cons, List.flatMap_nil, digit_render _ ha, digit_render _ hb,
      digit_render _ hc, digit_render _ hd]
    rfl
  · intro h
    have e3' : n / 10 / 10 / 10 = 0 := by omega
    by_cases f2 : n / 10 / 10 = 0
    · by_cases f1 : n / 10 = 0
      · simp [toDigitsCore_step, f1, e0, digit_render _ hd]
      · obtain ⟨k, hk⟩ : ∃ k, n + 1 = k + 2 := ⟨n - 1, by omega⟩
        rw [hk]
        simp [toDigitsCore_step, f1, f2, e0, e1, digit_render _ hd, digit_render _ hc]
    · have f1 : n / 10 ≠ 0 := by omega
      obtain ⟨k, hk⟩ : ∃ k, n + 1 = k + 3 := ⟨n - 2, by omega⟩
      rw [hk]
      simp [toDigitsCore_step, f1, f2, e3', e0, e1, e2, digit_render _ hd, digit_render _ hc,
        digit_render _ hb]

theorem go_empty : go "" = [] := rfl

theorem yearFrom_long {dateStr : GoString} (h : 4 ≤ len dateStr) :
    yearFrom dateStr = dateStr.take 4 := by
  have hne : dateStr ≠ go "" := by
    rintro rfl
    simp [go_empty, len] at h
  simp [yearFrom, hne, h]

theorem yearFrom_short {dateStr : GoString} (h : len dateStr < 4) :
    timeParse dateStr = none ∧ yearFrom dateStr = go "" := by
  have hp : timeParse dateStr = none := by
    cases hq : timeParse dateStr with
    | none => rfl
    | some t => exact absurd (timeParse_year hq).1 (by omega)
  refine ⟨hp, ?_⟩
  unfold yearFrom
  split
  · rfl
  · rw [if_neg (by omega), hp]

theorem enc_ascii {c : Char} (h : c.toNat < 128) : (String.utf8EncodeChar c).length = 1 := by
  have : c.val ≤ 127 := by
    have h1 : c.val.toNat < 128 := h
    show c.val.toNat ≤ 127
    omega
  simp [String.utf8EncodeChar, this]

theorem go_ascii_take (l : List Char) (h : ∀ c ∈ l, c.toNat < 128) (n : Nat) :
    (go ⟨l⟩).length = l.length ∧ (go ⟨l⟩).take n = go ⟨l.take n⟩ := by
  induction l generalizing n with
  | nil => simp [go]
  | cons c l ih =>
    have hc := enc_ascii (h c (List.mem_cons_self _ _))
    have ih' := fun n => ih (fun c hc => h c (List.mem_cons_of_mem _ hc)) n
    obtain ⟨b, hb⟩ : ∃ b, String.utf8EncodeChar c = [b] := by
      match hx : String.utf8EncodeChar c, hc with
      | [b], _ => exact ⟨b, rfl⟩
    constructor
    · have := (ih' 0).1
      simp only [go, List.flatMap_cons, List.length_append, List.length_map, hc,
        List.length_cons] at this ⊢
      omega
    · cases n with
      | zero => rfl
      | succ n =>
        have := (ih' n).2
        simp only [go, List.flatMap_cons, hb, List.map_cons, List.map_nil, List.singleton_append,
          List.take_succ_cons] at this ⊢
        rw [this]

theorem go_ascii (s : String) (h : ∀ c ∈ s.data, c.toNat < 128) (n : Nat) :
    len (go s) = s.length ∧ (go s).take n = go ⟨s.data.take n⟩ :=
  go_ascii_take s.data h n

/-- Claim C4, counterexample: the claim counts characters, the code bytes.  The date text
`令和5年5月1日` has 8 characters, yet `yearFrom` returns its first 4 bytes (the first character
and one byte of the second), not its first 4 characters; and `日本語`, which has only 3
characters and is no timestamp, does not give the empty string. -/
theorem yearFrom_characters_counterexample :
    "令和5年5月1日".length = 8 ∧
      yearFrom (go "令和5年5月1日") = [0xE4, 0xBB, 0xA4, 0xE5] ∧
      yearFrom (go "令和5年5月1日") ≠ go (String.mk ("令和5年5月1日".data.take 4)) ∧
      "日本語".length = 3 ∧ timeParse (go "日本語") = none ∧
      yearFrom (go "日本語") = [0xE6, 0x97, 0xA5, 0xE6] := by
  decide

/-- Claim C4, amended: for every stored date string, `yearFrom` returns the first 4 bytes of
the string when the string is at least 4 bytes long (`"2023-05-01"` gives `"2023"`);
otherwise, when the whole string parses as a timestamp, the decimal year of that timestamp;
otherwise the empty string (the empty date gives `""`).  No string shorter than 4 bytes
parses as a timestamp, so a shorter string always gives the empty string.  For a string of
ASCII characters bytes and characters coincide: its length in bytes is its number of
characters and, when it has at least 4 characters, `yearFrom` returns its first 4
characters. -/
theorem yearFrom_bytes (dateStr : GoString) :
    (4 ≤ len dateStr → yearFrom dateStr = dateStr.take 4) ∧
      (len dateStr < 4 →
        yearFrom dateStr =
          match timeParse dateStr with
          | some t => Sprintf "%d" [.d t.Year]
          | none => go "") ∧
      (len dateStr < 4 → timeParse dateStr = none ∧ yearFrom dateStr = go "") ∧
      (∀ s : String, dateStr = go s → (∀ c ∈ s.data, c.toNat < 128) →
        len dateStr = s.length ∧
          (4 ≤ s.length → yearFrom dateStr = go (String.mk (s.data.take 4)))) ∧
      yearFrom (go "2023-05-01") = go "2023" ∧ yearFrom (go "") = go "" := by
  refine ⟨yearFrom_long, ?_, yearFrom_short, ?_, by decide, by decide⟩
  · intro h
    rw [(yearFrom_short h).1, (yearFrom_short h).2]
  · rintro s rfl hs
    have := go_ascii s hs 4
    refine ⟨this.1, fun h4 => ?_⟩
    rw [yearFrom_long (by rw [this.1]; exact h4)]
    exact this.2

/-- Claim C4, witness: a long date, a short text and an ASCII text. -/
theorem yearFrom_bytes_witness :
    yearFrom (go "2023-05-01T10:00:00Z") = go "2023" ∧ yearFrom (go "ab") = go "" ∧
      yearFrom (go "May 2023") = go "May " :=
  ⟨((yearFrom_bytes (go "2023-05-01T10:00:00Z")).1 (by decide)).trans (by decide),
    ((yearFrom_bytes (go "ab")).2.2.1 (by decide)).2,
    (((yearFrom_bytes (go "May 2023")).2.2.2.1 "May 2023" rfl (by decide)).2
      (by decide)).trans (by decide)⟩

/-- Claim C10, counterexample: the RFC 3339 timestamp `0999-01-01T00:00:00Z` parses to the
year 999, which prints as `999`, but `yearFrom` returns `0999`. -/
theorem yearFrom_year_below_1000_counterexample :
    (timeParse (go "0999-01-01T00:00:00Z")).map (fun t => Sprintf "%d" [.d t.Year]) =
        some (go "999") ∧
      yearFrom (go "0999-01-01T00:00:00Z") = go "0999" ∧ go "0999" ≠ go "999" := by
  decide

/-- Claim C10, amended: for every date string that is a full RFC 3339 timestamp, `yearFrom`
returns the first four bytes of the string, which are the four digits of the year field;
their value is the year of the parsed timestamp, a year from 0 to 9999.  The result is the
year written as a decimal number exactly when the year is at least 1000; for a year below
1000 the result keeps the leading zeros and differs from the printed year. -/
theorem yearFrom_rfc3339 (dateStr : GoString) (t : Time) (h : timeParse dateStr = some t) :
    yearFrom dateStr = dateStr.take 4 ∧
      (dateStr.take 4).length = 4 ∧
      (∀ c ∈ dateStr.take 4, isDigit c = true) ∧
      atoi (dateStr.take 4) = some t.Year ∧
      0 ≤ t.Year ∧ t.Year ≤ 9999 ∧
      (1000 ≤ t.Year → yearFrom dateStr = Sprintf "%d" [.d t.Year]) ∧
      (t.Year < 1000 → yearFrom dateStr ≠ Sprintf "%d" [.d t.Year]) := by
  obtain ⟨hlen, hd, hy⟩ := timeParse_year h
  rw [yearFrom_long hlen]
  match dateStr, hlen, hd, hy with
  | a :: b :: c :: d :: rest, _, hd, hy =>
    have ha : isDigit a = true := by simpa using hd
    simp only [List.take_succ_cons, List.take_zero] at hy
    obtain ⟨hb, hc, hd', hval⟩ := atoi_four ha hy
    have r := render_digits ha hb hc hd' _ rfl
    have ba := isDigit_bounds ha
    have bb := isDigit_bounds hb
    have bc := isDigit_bounds hc
    have bd := isDigit_bounds hd'
    refine ⟨rfl, rfl, ?_, hy, ?_, ?_, ?_, ?_⟩
    · intro x hx
      have hx' : x ∈ [a, b, c, d] := hx
      simp only [List.mem_cons, List.mem_singleton, List.not_mem_nil, or_false] at hx'
      rcases hx' with rfl | rfl | rfl | rfl <;> assumption
    · show 0 ≤ t.year
      omega
    · show t.year ≤ 9999
      omega
    · intro h1
      rw [Sprintf_d]
      show _ = go (toString t.year)
      rw [hval]
      exact (r.1 (by have : (1000 : Int) ≤ t.year := h1; omega)).symm
    · intro h1 heq
      rw [Sprintf_d] at heq
      have h2 : t.year < 1000 := h1
      have := r.2 (by omega)
      have e : go (toString t.Year) = go (toString t.year) := rfl
      rw [e, hval] at heq
      rw [← heq] at this
      simp at this

/-- Claim C10, witness: a timestamp of the year 2023 and one of the year 999. -/
theorem yearFrom_rfc3339_witness :
    yearFrom (go "2023-05-01T10:00:00+02:00") = go "2023" ∧
      yearFrom (go "0999-01-01T00:00:00Z") ≠ go "999" :=
  ⟨((yearFrom_rfc3339 (go "2023-05-01T10:00:00+02:00")
      ⟨2023, 5, 1, 10, 0, 0, 0, 7200⟩ (by decide)).2.2.2.2.2.2.1 (by decide)).trans (by decide),
    fun h => (yearFrom_rfc3339 (go "0999-01-01T00:00:00Z")
      ⟨999, 1, 1, 0, 0, 0, 0, 0⟩ (by decide)).2.2.2.2.2.2.2 (by decide) (h.trans (by decide))⟩

/-! ## The JSON parser: every step consumes input, and the fuel suffices -/

theorem skipSpace_length (s : GoString) : (skipSpace s).length ≤ s.length := by
  induction s with
  | nil => simp [skipSpace]
  | cons c r ih =>
    simp only [skipSpace]
    split
    · simp only [List.length_cons]; omega
    · simp

theorem skipDigits_length (s : GoString) : (skipDigits s).length ≤ s.length := by
  induction s with
  | nil => simp [skipDigits]
  | cons c r ih =>
    simp only [skipDigits]
    split
    · simp only [List.length_cons]; omega
    · simp

theorem consResult_some {pre : GoString} {o : Option (GoString × GoString)} {x r : GoString}
    (h : consResult pre o = some (x, r)) : ∃ y, o = some (y, r) := by
  cases o with
  | none => simp [consResult] at h
  | some p =>
    obtain ⟨y, r'⟩ := p
    simp only [consResult, Option.some.injEq, Prod.mk.injEq] at h
    exact ⟨y, by rw [h.2]⟩

theorem decodeRuneSize_pos {s : GoString} {n : Nat} (h : decodeRuneSize s = some n) :
    1 ≤ n := by
  unfold decodeRuneSize at h
  split at h
  · simp at h
  · repeat (first | (split at h) | (simp at h; omega) | (simp at h))

theorem getu4_length {s : GoString} {rr : Nat} (h : getu4 s = some rr) : 6 ≤ s.length := by
  unfold getu4 at h
  split at h
  · simp only [List.length_cons]; omega
  · simp at h

theorem unquoteU_length {s pre r : GoString} (h : unquoteU s = some (pre, r)) :
    r.length < s.length := by
  unfold unquoteU at h
  split at h
  · simp at h
  · rename_i rr hrr
    have h6 := getu4_length hrr
    have l6 : (s.drop 6).length < s.length := by simp only [List.length_drop]; omega
    have l12 : ((s.drop 6).drop 6).length < s.length := by
      simp only [List.length_drop]; omega
    dsimp only at h
    repeat (first
      | (split at h)
      | (simp only [Option.some.injEq, Prod.mk.injEq] at h; rw [← h.2]; first | exact l6 | exact l12))

theorem unquoteStep_length {s pre r : GoString} (h : unquoteStep s = some (pre, r)) :
    r.length < s.length := by
  unfold unquoteStep at h
  split at h
  · simp at h
  · rename_i c rest
    split at h
    · split at h
      · simp at h
      · rename_i e rest1
        have l1 : rest1.length < (c :: e :: rest1).length := by
          simp only [List.length_cons]; omega
        repeat (first
          | exact unquoteU_length h
          | (split at h)
          | (simp only [Option.some.injEq, Prod.mk.injEq] at h; rw [← h.2]; exact l1)
          | (simp at h))
    · split at h
      · simp at h
      · split at h
        · simp only [Option.some.injEq, Prod.mk.injEq] at h
          rw [← h.2]; simp
        · split at h
          · rename_i n hn
            have := decodeRuneSize_pos hn
            simp only [Option.some.injEq, Prod.mk.injEq] at h
            rw [← h.2]
            simp only [List.length_drop, List.length_cons]; omega
          · simp only [Option.some.injEq, Prod.mk.injEq] at h
            rw [← h.2]; simp

theorem unquote_length : ∀ (fuel : Nat) (s x r : GoString),
    unquote fuel s = some (x, r) → r.length < s.length := by
  intro fuel
  induction fuel with
  | zero => intro s x r h; simp [unquote] at h
  | succ f ih =>
    intro s x r h
    cases s with
    | nil => simp [unquote] at h
    | cons c rest =>
      rw [unquote] at h
      split at h
      · simp only [Option.some.injEq, Prod.mk.injEq] at h
        rw [← h.2]; simp
      · split at h
        · simp at h
        · rename_i pre s' hstep
          obtain ⟨y, hy⟩ := consResult_some h
          have h1 := ih s' y r hy
          have h2 := unquoteStep_length hstep
          omega

theorem scanExp_length {s r : GoString} (h : scanExp s = some r) : r.length ≤ s.length := by
  unfold scanExp at h
  dsimp only at h
  split at h
  · rename_i d r' hs1
    split at h
    · simp only [Option.some.injEq] at h
      have h1 := skipDigits_length r'
      have h2 : (d :: r').length ≤ s.length := by
        rw [← hs1]
        split
        · split
          · simp
          · simp
        · simp
      rw [← h]
      simp only [List.length_cons] at h2
      omega
    · simp at h
  · simp at h

theorem scanFrac_length {s r : GoString} (h : scanFrac s = some r) : r.length ≤ s.length := by
  unfold scanFrac at h
  split at h
  · rename_i c r0
    split at h
    · split at h
      · rename_i d r1
        split at h
        · have hd := skipDigits_length r1
          split at h
          · rename_i e r2 hsk
            rw [hsk] at hd
            simp only [List.length_cons] at hd ⊢
            split at h
            · have := scanExp_length h
              omega
            · simp only [Option.some.injEq] at h
              rw [← h]
              simp only [List.length_cons]
              omega
          · simp only [Option.some.injEq] at h
            rw [← h]; simp
        · simp at h
      · simp at h
    · split at h
      · have := scanExp_length h
        simp only [List.length_cons]
        omega
      · simp only [Option.some.injEq] at h
        rw [← h]
  · simp only [Option.some.injEq] at h
    rw [← h]

theorem scanNumber_length {c : Byte} {rest r : GoString}
    (h : scanNumber (c :: rest) = some r) : r.length < (c :: rest).length := by
  unfold scanNumber at h
  dsimp only at h
  split at h
  · rename_i d r' hs1
    have h2 : r'.length < (c :: rest).length := by
      split at hs1
      · rw [hs1]
        simp only [List.length_cons]
        omega
      · simp only [List.cons.injEq] at hs1
        rw [← hs1.2]; simp
    split at h
    · have := scanFrac_length h
      omega
    · split at h
      · have := scanFrac_length h
        have := skipDigits_length r'
        omega
      · simp at h
  · simp at h

theorem stripLit_length {lit s r : GoString} (hl : 0 < lit.length)
    (h : stripLit lit s = some r) : r.length < s.length := by
  unfold stripLit at h
  split at h
  · rename_i hp
    simp only [Option.some.injEq] at h
    have := (List.isPrefixOf_iff_prefix.mp hp).length_le
    rw [← h, List.length_drop]
    omega
  · simp at h

theorem parseScalar_length {s r : GoString} {v : JSONValue}
    (h : parseScalar s = some (v, r)) : r.length < s.length := by
  unfold parseScalar at h
  split at h
  · simp at h
  · rename_i c rest
    split at h
    · split at h
      · rename_i x r' hu
        simp only [Option.some.injEq, Prod.mk.injEq] at h
        have := unquote_length _ _ _ _ hu
        rw [← h.2]
        simp only [List.length_cons]; omega
      · simp at h
    · split at h
      · split at h
        · rename_i r' hn
          simp only [Option.some.injEq, Prod.mk.injEq] at h
          rw [← h.2]
          exact scanNumber_length hn
        · simp at h
      · have lit : ∀ (l : GoString) (w : JSONValue), 0 < l.length →
            (match stripLit l (c :: rest) with
              | some r => some (w, r)
              | none => none) = some (v, r) → r.length < (c :: rest).length := by
          intro l w hl hm
          split at hm
          · rename_i r' hn
            simp only [Option.some.injEq, Prod.mk.injEq] at hm
            rw [← hm.2]
            exact stripLit_length hl hn
          · simp at hm
        split at h
        · exact lit _ _ (by decide) h
        · split at h
          · exact lit _ _ (by decide) h
          · split at h
            · exact lit _ _ (by decide) h
            · simp at h

theorem skipSpace_cons_length {s r : GoString} {c : Byte} (h : skipSpace s = c :: r) :
    r.length < s.length := by
  have := skipSpace_length s
  rw [h] at this
  simp only [List.length_cons] at this
  omega

theorem parse_length : ∀ fuel : Nat,
    (∀ d s v r, parseValue fuel d s = some (v, r) → r.length < s.length) ∧
      (∀ d s vs r, parseElems fuel d s = some (vs, r) → r.length < s.length) ∧
      (∀ d s ms r, parseMembers fuel d s = some (ms, r) → r.length < s.length) := by
  intro fuel
  induction fuel with
  | zero => simp [parseValue, parseElems, parseMembers]
  | succ f ih =>
    obtain ⟨ihv, ihe, ihm⟩ := ih
    refine ⟨?_, ?_, ?_⟩
    · intro d s v r h
      cases s with
      | nil => simp [parseValue] at h
      | cons c rest =>
        rw [parseValue] at h
        split at h
        · split at h
          · simp at h
          · split at h
            · simp at h
            · rename_i c1 r1 hsk
              have l1 := skipSpace_cons_length hsk
              have l0 := skipSpace_length rest
              rw [hsk] at l0
              split at h
              · simp only [Option.some.injEq, Prod.mk.injEq] at h
                rw [← h.2]
                simp only [List.length_cons]; omega
              · split at h
                · rename_i ms r' hm
                  simp only [Option.some.injEq, Prod.mk.injEq] at h
                  have := ihm _ _ _ _ hm
                  rw [← h.2]
                  simp only [List.length_cons] at this l0 ⊢
                  omega
                · simp at h
        · split at h
          · split at h
            · simp at h
            · split at h
              · simp at h
              · rename_i c1 r1 hsk
                have l1 := skipSpace_cons_length hsk
                have l0 := skipSpace_length rest
                rw [hsk] at l0
                split at h
                · simp only [Option.some.injEq, Prod.mk.injEq] at h
                  rw [← h.2]
                  simp only [List.length_cons]; omega
                · split at h
                  · rename_i vs r' hm
                    simp only [Option.some.injEq, Prod.mk.injEq] at h
                    have := ihe _ _ _ _ hm
                    rw [← h.2]
                    simp only [List.length_cons] at this l0 ⊢
                    omega
                  · simp at h
          · exact parseScalar_length h
    · intro d s vs r h
      rw [parseElems] at h
      split at h
      · simp at h
      · rename_i v r0 hv
        have lv := ihv _ _ _ _ hv
        split at h
        · simp at h
        · rename_i c r1 hsk
          have l1 := skipSpace_cons_length hsk
          split at h
          · split at h
            · rename_i vs' r2 he
              simp only [Option.some.injEq, Prod.mk.injEq] at h
              have := ihe _ _ _ _ he
              have := skipSpace_length r1
              rw [← h.2]
              omega
            · simp at h
          · split at h
            · simp only [Option.some.injEq, Prod.mk.injEq] at h
              rw [← h.2]
              omega
            · simp at h
    · intro d s ms r h
      cases s with
      | nil => simp [parseMembers] at h
      | cons q s =>
        rw [parseMembers] at h
        split at h
        · split at h
          · simp at h
          · rename_i key r0 hu
            have lu := unquote_length _ _ _ _ hu
            split at h
            · simp at h
            · rename_i colon r1 hsk
              have l1 := skipSpace_cons_length hsk
              split at h
              · split at h
                · simp at h
                · rename_i v r2 hv
                  have lv := ihv _ _ _ _ hv
                  have ls := skipSpace_length r1
                  split at h
                  · simp at h
                  · rename_i c r3 hsk2
                    have l3 := skipSpace_cons_length hsk2
                    split at h
                    · split at h
                      · rename_i ms' r4 hm
                        simp only [Option.some.injEq, Prod.mk.injEq] at h
                        have := ihm _ _ _ _ hm
                        have := skipSpace_length r3
                        rw [← h.2]
                        simp only [List.length_cons]
                        omega
                      · simp at h
                    · split at h
                      · simp only [Option.some.injEq, Prod.mk.injEq] at h
                        rw [← h.2]
                        simp only [List.length_cons]
                        omega
                      · simp at h
              · simp at h
        · simp at h

theorem parse_fuel : ∀ fuel : Nat,
    (∀ d s, 2 * s.length ≤ fuel → parseValue (fuel + 1) d s = parseValue fuel d s) ∧
      (∀ d s, 2 * s.length + 1 ≤ fuel → parseElems (fuel + 1) d s = parseElems fuel d s) ∧
      (∀ d s, 2 * s.length + 1 ≤ fuel →
        parseMembers (fuel + 1) d s = parseMembers fuel d s) := by
  intro fuel
  induction fuel with
  | zero =>
    refine ⟨?_, ?_, ?_⟩
    · intro d s h
      have : s = [] := List.length_eq_zero.mp (by omega)
      subst this
      simp [parseValue]
    · intro d s h; omega
    · intro d s h; omega
  | succ f ih =>
    obtain ⟨ihv, ihe, ihm⟩ := ih
    refine ⟨?_, ?_, ?_⟩
    · intro d s h
      cases s with
      | nil => simp [parseValue]
      | cons c rest =>
        simp only [List.length_cons] at h
        conv_lhs => rw [parseValue]
        conv_rhs => rw [parseValue]
        have key : ∀ c1 r1, skipSpace rest = c1 :: r1 → 2 * (c1 :: r1).length + 1 ≤ f := by
          intro c1 r1 hsk
          have := skipSpace_length rest
          rw [hsk] at this
          omega
        cases hsk : skipSpace rest with
        | nil => rfl
        | cons c1 r1 =>
          simp only [ihm _ _ (key c1 r1 hsk), ihe _ _ (key c1 r1 hsk)]
    · intro d s h
      conv_lhs => rw [parseElems]
      conv_rhs => rw [parseElems]
      rw [ihv d s (by omega)]
      cases hv : parseValue f d s with
      | none => rfl
      | some p =>
        obtain ⟨v, r⟩ := p
        have lv := (parse_length f).1 _ _ _ _ hv
        dsimp only
        cases hsk : skipSpace r with
        | nil => rfl
        | cons c r1 =>
          have l1 := skipSpace_cons_length hsk
          have l2 := skipSpace_length r1
          dsimp only
          rw [ihe d (skipSpace r1) (by omega)]
    · intro d s h
      cases s with
      | nil => simp [parseMembers]
      | cons q s =>
        simp only [List.length_cons] at h
        conv_lhs => rw [parseMembers]
        conv_rhs => rw [parseMembers]
        by_cases hq : q = 34
        · simp only [if_pos hq]
          cases hu : unquote (s.length + 1) s with
          | none => rfl
          | some p =>
            obtain ⟨key, r⟩ := p
            have lu := unquote_length _ _ _ _ hu
            dsimp only
            cases hsk : skipSpace r with
            | nil => rfl
            | cons colon r0 =>
              have l0 := skipSpace_cons_length hsk
              have l0' := skipSpace_length r0
              dsimp only
              by_cases hc : colon = 58
              · simp only [if_pos hc]
                rw [ihv d (skipSpace r0) (by omega)]
                cases hv : parseValue f d (skipSpace r0) with
                | none => rfl
                | some p =>
                  obtain ⟨v, r1⟩ := p
                  have lv := (parse_length f).1 _ _ _ _ hv
                  dsimp only
                  cases hsk2 : skipSpace r1 with
                  | nil => rfl
                  | cons c r2 =>
                    have l2 := skipSpace_cons_length hsk2
                    have l2' := skipSpace_length r2
                    dsimp only
                    rw [ihm d (skipSpace r2) (by omega)]
              · simp only [if_neg hc]
        · simp only [if_neg hq]

theorem parseValue_fuel (d : Nat) (s : GoString) (k : Nat) :
    parseValue (2 * s.length + k) d s = parseValue (2 * s.length) d s := by
  induction k with
  | zero => rfl
  | succ k ih =>
    rw [← ih]
    exact (parse_fuel (2 * s.length + k)).1 d s (by omega)

theorem unquote_fuel : ∀ (fuel : Nat) (s : GoString), s.length < fuel →
    unquote (fuel + 1) s = unquote fuel s := by
  intro fuel
  induction fuel with
  | zero => intro s h; omega
  | succ f ih =>
    intro s h
    cases s with
    | nil => simp [unquote]
    | cons c rest =>
      conv_lhs => rw [unquote]
      conv_rhs => rw [unquote]
      cases hstep : unquoteStep (c :: rest) with
      | none => rfl
      | some p =>
        obtain ⟨pre, s1⟩ := p
        have := unquoteStep_length hstep
        dsimp only
        rw [ih s1 (by omega)]

/-- The fuel that `parseJSON` hands to the parser suffices: with any larger amount the
parser returns the same result. -/
theorem parseJSON_fuel (data : GoString) (k : Nat) :
    parseValue (2 * data.length + 2 + k) 0 (skipSpace data) =
      parseValue (2 * data.length + 2) 0 (skipSpace data) := by
  have h := skipSpace_length data
  obtain ⟨j, hj⟩ : ∃ j, 2 * data.length + 2 = 2 * (skipSpace data).length + j :=
    ⟨2 * data.length + 2 - 2 * (skipSpace data).length, by omega⟩
  rw [hj, Nat.add_assoc, parseValue_fuel, parseValue_fuel]

/-! ## Stored author data: `parseAuthors` -/

/-- Claim C9, counterexample: the stored text `["A", 1]` is valid JSON but not an array of
strings, and `json.Unmarshal` reports an error for it; yet `parseAuthors` returns the two
entries `"A"` and `""`, not the empty list, and the line shows `A et al.`. -/
theorem parseAuthors_nonstring_element_counterexample :
    (Unmarshal (go "[\"A\", 1]")).2 ≠ none ∧
      parseAuthors (go "[\"A\", 1]") = [go "A", go ""] ∧
      authorDisplay (parseAuthors (go "[\"A\", 1]")) = go "A et al." ∧
      formatLine ⟨go "p1", go "T", go "[\"A\", 1]", ⟨go "2022-01-01", true⟩⟩ [] =
        go "- [T](p1.md) - A et al. (2022) []\n" := by
  decide

/-- Claim C9, amended: for every stored authors string that is not a JSON array (invalid
JSON syntax, or valid JSON whose value is not an array), `parseAuthors` returns the empty
author list and surfaces no error, so `formatLine` renders the empty author display for that
item.  For a JSON array, well-formed or not, `parseAuthors` returns one entry per element:
the string for a string element and the empty string for any other element. -/
theorem parseAuthors_malformed (jsonStr : GoString) :
    ((∀ elems, parseJSON jsonStr ≠ some (.array elems)) →
        parseAuthors jsonStr = [] ∧
          authorDisplay (parseAuthors jsonStr) = go "" ∧
          ∀ (it : itemRow) (tags : List GoString), it.AuthorsJSON = jsonStr →
            formatLine it tags =
              go "- [" ++ it.Title ++ go "](" ++ it.Slug ++ go ".md) -  (" ++
                yearFrom it.Date.String ++ go ") [" ++ (go ", ").intercalate tags ++
                go "]\n") ∧
      (∀ elems, parseJSON jsonStr = some (.array elems) →
        parseAuthors jsonStr = elems.map fun v =>
          match v with
          | .string s => s
          | _ => go "") := by
  constructor
  · intro h
    have hp : parseAuthors jsonStr = [] := by
      unfold parseAuthors Unmarshal
      split
      · rfl
      · rfl
      · rename_i elems he
        exact absurd he (h elems)
      · rfl
    refine ⟨hp, by rw [hp]; rfl, ?_⟩
    rintro it tags rfl
    rw [formatLine_eq it tags, hp]
    simp only [List.append_assoc]
    rfl
  · intro elems he
    unfold parseAuthors Unmarshal
    rw [he]
    simp only
    apply List.map_congr_left
    intro v _
    cases v <;> rfl

/-- Claim C9, witness: a truncated array, an object, and an array with elements that are
not strings. -/
theorem parseAuthors_malformed_witness :
    parseAuthors (go "[\"A\", \"B\"") = [] ∧
      parseAuthors (go "\x7b\"name\": \"A\"\x7d") = [] ∧
      parseAuthors (go "[\"A\", 1, null, \"B\"]") = [go "A", go "", go "", go "B"] :=
  ⟨((parseAuthors_malformed (go "[\"A\", \"B\"")).1 (by
      have h : parseJSON (go "[\"A\", \"B\"") = none := by rfl
      intro elems
      rw [h]
      exact Option.noConfusion)).1,
    ((parseAuthors_malformed (go "\x7b\"name\": \"A\"\x7d")).1 (by
      have h : parseJSON (go "\x7b\"name\": \"A\"\x7d") =
          some (.object [(go "name", .string (go "A"))]) := by rfl
      intro elems
      rw [h]
      intro h2
      cases h2)).1,
    ((parseAuthors_malformed (go "[\"A\", 1, null, \"B\"]")).2
      [.string (go "A"), .number (go "1"), .null, .string (go "B")] (by rfl)).trans (by rfl)⟩

/-! ## Queries on a healthy store -/

theorem scanLoop_ok {α : Type} (l : List α) (err : Option GoError) (out : List α) :
    scanLoop (l.map Except.ok) err out = (out ++ l, err) := by
  induction l generalizing out with
  | nil => simp [scanLoop]
  | cons a l ih => simp [scanLoop, ih]

theorem fetchItems_healthy (db : DB) (typ : GoString) (h : db.fault db.calls = .healthy) :
    fetchItems db typ = ((selectItems db typ, none), db.after 1) := by
  simp [fetchItems, DB.Query, h, Rows.ofFault, scanLoop_ok, DB.after]

theorem fetchTags_healthy (db : DB) (slug : GoString) (h : db.fault db.calls = .healthy) :
    fetchTags db slug = ((selectTags db slug, none), db.after 1) := by
  simp [fetchTags, DB.Query, h, Rows.ofFault, scanLoop_ok, DB.after]

theorem renderItems_healthy (db : DB) (h : ∀ n, db.fault n = .healthy) (items : List itemRow)
    (b : GoString) :
    renderItems db items b =
      (b ++ (items.map fun it => formatLine it (selectTags db it.Slug)).flatten,
        db.after items.length) := by
  induction items generalizing db b with
  | nil => simp [renderItems, DB.after]
  | cons it rest ih =>
    simp only [renderItems, fetchTags_healthy db it.Slug (h _)]
    rw [ih (db.after 1) h]
    simp only [DB.after, selectTags, joinTags, List.map_cons, List.flatten_cons,
      List.append_assoc, List.length_cons, Nat.add_assoc, Nat.add_comm 1]

/-- Claim C1: for every store on which all queries succeed, with P the paper rows and A the
article rows returned by `fetchItems` and tags(x) the tag list returned by `fetchTags` for
the slug of x, `ExportIndex` returns exactly `"# Research Index\n\n## Papers\n"`, the lines
`formatLine p (tags p)` over P in order, `"\n## Blog Posts\n"`, the lines
`formatLine a (tags a)` over A in order, and `"\n"`, and no error. -/
theorem ExportIndex_spec (db : DB) (h : ∀ n, db.fault n = Fault.healthy) :
    (ExportIndex db).1 =
      (go "# Research Index\n\n## Papers\n" ++
        ((fetchItems db (go "paper")).1.1.map fun p =>
          formatLine p (fetchTags db p.Slug).1.1).flatten ++
        go "\n## Blog Posts\n" ++
        ((fetchItems db (go "article")).1.1.map fun a =>
          formatLine a (fetchTags db a.Slug).1.1).flatten ++
        go "\n", none) := by
  have ft : ∀ slug, (fetchTags db slug).1.1 = selectTags db slug := fun slug => by
    rw [fetchTags_healthy db slug (h _)]
  simp only [ft, fetchItems_healthy db _ (h _)]
  unfold ExportIndex
  simp only [fetchItems_healthy db _ (h _)]
  rw [renderItems_healthy (db.after 1) h]
  simp only [fetchItems_healthy ((db.after 1).after _) _ (h _)]
  rw [renderItems_healthy (((db.after 1).after _).after 1) h]
  have e1 : ∀ k typ, selectItems (db.after k) typ = selectItems db typ := fun _ _ => rfl
  have e2 : ∀ k slug, selectTags (db.after k) slug = selectTags db slug := fun _ _ => rfl
  have e3 : go "# Research Index\n\n" ++ go "## Papers\n" =
      go "# Research Index\n\n## Papers\n" := by
    decide
  have e4 : ∀ x : GoString,
      x ++ go "\n" ++ go "## Blog Posts\n" = x ++ go "\n## Blog Posts\n" := by
    intro x
    rw [List.append_assoc]
    rfl
  simp only [e1, e2, e3, e4]
  rfl

/-- Claim C1, witness: for the store holding one paper (slug `p1`, title `T`, authors
`["X"]`, date `2022-01-01`, tags `["ml"]`) and no article the result is the document
`"# Research Index\n\n## Papers\n- [T](p1.md) - X (2022) [ml]\n\n## Blog Posts\n\n"`. -/
theorem ExportIndex_spec_witness :
    (∀ n, exampleStore.fault n = Fault.healthy) ∧
      (ExportIndex exampleStore).1 =
        (go "# Research Index\n\n## Papers\n- [T](p1.md) - X (2022) [ml]\n\n## Blog Posts\n\n",
          none) :=
  ⟨fun _ => rfl, (ExportIndex_spec exampleStore (fun _ => rfl)).trans (by decide)⟩

/-! ## Order of the rows -/

theorem joinTags_perm (db db' : DB) (slug : GoString) (hi : db.items.Perm db'.items)
    (ht : db.tags.Perm db'.tags) (hl : db.item_tags.Perm db'.item_tags) :
    (joinTags db slug).Perm (joinTags db' slug) := by
  unfold joinTags
  refine (List.Perm.flatMap_right _ ht).trans (List.Perm.flatMap_left _ fun t _ => ?_)
  refine (List.Perm.flatMap_right _ (hl.filter _)).trans
    (List.Perm.flatMap_left _ fun it _ => ?_)
  exact (hi.filter _).map _

theorem ExportIndex_healthy (db : DB) (h : ∀ n, db.fault n = Fault.healthy) :
    (ExportIndex db).1 =
      (go "# Research Index\n\n## Papers\n" ++
        ((fetchItems db (go "paper")).1.1.map fun p =>
          formatLine p (fetchTags db p.Slug).1.1).flatten ++
        go "\n## Blog Posts\n" ++
        ((fetchItems db (go "article")).1.1.map fun a =>
          formatLine a (fetchTags db a.Slug).1.1).flatten ++
        go "\n", none) := by
  have ft : ∀ slug, (fetchTags db slug).1.1 = selectTags db slug := fun slug => by
    rw [fetchTags_healthy db slug (h _)]
  simp only [ft, fetchItems_healthy db _ (h _)]
  unfold ExportIndex
  simp only [fetchItems_healthy db _ (h _)]
  rw [renderItems_healthy (db.after 1) h]
  simp only [fetchItems_healthy ((db.after 1).after _) _ (h _)]
  rw [renderItems_healthy (((db.after 1).after _).after 1) h]
  have e1 : ∀ k typ, selectItems (db.after k) typ = selectItems db typ := fun _ _ => rfl
  have e2 : ∀ k slug, selectTags (db.after k) slug = selectTags db slug := fun _ _ => rfl
  have e3 : go "# Research Index\n\n" ++ go "## Papers\n" =
      go "# Research Index\n\n## Papers\n" := by
    decide
  have e4 : ∀ x : GoString,
      x ++ go "\n" ++ go "## Blog Posts\n" = x ++ go "\n## Blog Posts\n" := by
    intro x
    rw [List.append_assoc]
    rfl
  simp only [e1, e2, e3, e4]
  rfl

/-- Claim C5, counterexample: the rows are ordered by the text of the effective date, not
by the date it denotes.  The paper `late` is dated 2023-05-01T23:00:00-05:00, three hours
after the paper `early`, dated 2023-05-02T01:00:00Z; yet `fetchItems` returns `early` before
`late` and `ExportIndex` renders the lines in that order, so the dates of the Papers section
increase. -/
theorem chronological_order_counterexample :
    (timeParse (go "2023-05-02T01:00:00Z")).map Time.Unix = some 1682989200 ∧
      (timeParse (go "2023-05-01T23:00:00-05:00")).map Time.Unix = some 1683000000 ∧
      (1682989200 : Int) < 1683000000 ∧
      (fetchItems zoneStore (go "paper")).1.1.map (fun r => (r.Slug, r.Date.String)) =
        [(go "early", go "2023-05-02T01:00:00Z"),
          (go "late", go "2023-05-01T23:00:00-05:00")] ∧
      (ExportIndex zoneStore).1 =
        (go ("# Research Index\n\n## Papers\n- [Early](early.md) -  (2023) []\n" ++
          "- [Late](late.md) -  (2023) []\n\n## Blog Posts\n\n"), none) := by
  decide

/-- Claim C5, amended: for every set of items on a store whose queries succeed, the rows
that `fetchItems` returns for a type are in non-increasing order of the text of the
effective date (the publication date if present, the creation timestamp otherwise), compared
byte by byte, any two rows with equal date text stand in ascending slug order, and the rows
are exactly the items of that type, each once; the Papers section and the Blog Posts section
of the document that `ExportIndex` returns consist of the lines of these rows, in this
order, one line for each row. -/
theorem section_order_by_date_text (db : DB) (h : ∀ n, db.fault n = Fault.healthy) :
    (∀ typ : GoString,
        (fetchItems db typ).1.2 = none ∧
          (fetchItems db typ).1.1.Pairwise (fun r1 r2 =>
            r2.Date.String < r1.Date.String ∨
              (r1.Date.String = r2.Date.String ∧ r1.Slug ≤ r2.Slug)) ∧
          (fetchItems db typ).1.1.Perm
            ((db.items.filter fun i => i.type = typ).map fun i =>
              { Slug := i.slug, Title := i.title, AuthorsJSON := i.authors_json,
                Date := ⟨(match i.date_published with
                  | some d => d
                  | none => i.created_at), true⟩ })) ∧
      (ExportIndex db).1.1 =
        go "# Research Index\n\n## Papers\n" ++
          ((fetchItems db (go "paper")).1.1.map fun p =>
            formatLine p (fetchTags db p.Slug).1.1).flatten ++
          go "\n## Blog Posts\n" ++
          ((fetchItems db (go "article")).1.1.map fun a =>
            formatLine a (fetchTags db a.Slug).1.1).flatten ++
          go "\n" := by
  refine ⟨fun typ => ?_, ?_⟩
  · rw [fetchItems_healthy db typ (h _)]
    refine ⟨rfl, ?_, ?_⟩
    · exact List.Pairwise.map _ (fun a b hab => hab)
        (List.sorted_insertionSort itemsOrder _)
    · exact (List.perm_insertionSort itemsOrder _).map _
  · rw [ExportIndex_healthy db h]

/-- Claim C5, witness: three papers, stored in the order b, a, c, where a and b tie on the
effective date (b through its creation timestamp), come out as c, a, b, and the Papers
section lists them in this order. -/
theorem section_order_by_date_text_witness :
    (∀ n, orderStore.fault n = Fault.healthy) ∧
      (fetchItems orderStore (go "paper")).1.1.map (fun r => (r.Slug, r.Date.String)) =
        [(go "c", go "2024-05-05"), (go "a", go "2023-01-01"), (go "b", go "2023-01-01")] ∧
      (fetchItems orderStore (go "paper")).1.1.Pairwise (fun r1 r2 =>
        r2.Date.String < r1.Date.String ∨
          (r1.Date.String = r2.Date.String ∧ r1.Slug ≤ r2.Slug)) ∧
      (ExportIndex orderStore).1.1 =
        go ("# Research Index\n\n## Papers\n- [C](c.md) -  (2024) []\n" ++
          "- [A](a.md) -  (2023) []\n- [B](b.md) -  (2023) []\n\n## Blog Posts\n" ++
          "- [X](x.md) -  (2025) []\n\n") :=
  ⟨fun _ => rfl, by decide,
    ((section_order_by_date_text orderStore (fun _ => rfl)).1 (go "paper")).2.1,
    ((section_order_by_date_text orderStore (fun _ => rfl)).2).trans (by decide)⟩

/-- Claim C6, counterexample: the tag names come in byte order, in which every capital
letter stands before every small letter, not in alphabetical order.  The paper tagged ml,
NLP, AI, robotics renders its tags as `[AI, NLP, ml, robotics]`: NLP stands before ml. -/
theorem alphabetical_order_counterexample :
    (fetchTags mixedCaseStore (go "p1")).1 =
        ([go "AI", go "NLP", go "ml", go "robotics"], none) ∧
      ¬ alphabeticalLE (go "NLP") (go "ml") ∧
      ¬ (fetchTags mixedCaseStore (go "p1")).1.1.Pairwise alphabeticalLE ∧
      formatLine exampleRow (fetchTags mixedCaseStore (go "p1")).1.1 =
        go "- [T](p1.md) - X (2022) [AI, NLP, ml, robotics]\n" := by
  decide

/-- Claim C6, amended: for every item and every order in which its tags were inserted, the
item's line lists its tag names in ascending byte order joined by `", "`; for names without
capital letters this is ascending alphabetical order, so tags inserted as b, a render as
`[a, b]`.  For any two stores that associate the same tag names with the item's slug, in
whatever order and under whatever ids, the tag lists fetched are equal and sorted, and the
rendered lines are equal. -/
theorem fetchTags_order_invariant (db db' : DB) (it : itemRow)
    (h : db.fault db.calls = Fault.healthy) (h' : db'.fault db'.calls = Fault.healthy)
    (hperm : (joinTags db it.Slug).Perm (joinTags db' it.Slug)) :
    (fetchTags db it.Slug).1.2 = none ∧
      (fetchTags db it.Slug).1.1.Pairwise (· ≤ ·) ∧
      (fetchTags db it.Slug).1.1.Perm (joinTags db it.Slug) ∧
      formatLine it (fetchTags db it.Slug).1.1 =
        go "- [" ++ it.Title ++ go "](" ++ it.Slug ++ go ".md) - " ++
          authorDisplay (parseAuthors it.AuthorsJSON) ++ go " (" ++
          yearFrom it.Date.String ++ go ") [" ++
          (go ", ").intercalate (fetchTags db it.Slug).1.1 ++ go "]\n" ∧
      (fetchTags db' it.Slug).1.1 = (fetchTags db it.Slug).1.1 ∧
      formatLine it (fetchTags db' it.Slug).1.1 =
        formatLine it (fetchTags db it.Slug).1.1 ∧
      ((∀ t ∈ (fetchTags db it.Slug).1.1, lowerASCII t = t) →
        (fetchTags db it.Slug).1.1.Pairwise alphabeticalLE) := by
  have hs : (fetchTags db' it.Slug).1.1 = (fetchTags db it.Slug).1.1 := by
    rw [fetchTags_healthy db _ h, fetchTags_healthy db' _ h']
    exact List.eq_of_perm_of_sorted
      (((List.perm_insertionSort _ _).trans hperm.symm).trans
        (List.perm_insertionSort _ _).symm)
      (List.sorted_insertionSort _ _) (List.sorted_insertionSort _ _)
  have hsorted : (fetchTags db it.Slug).1.1.Pairwise (· ≤ ·) := by
    rw [fetchTags_healthy db _ h]
    exact List.sorted_insertionSort _ _
  refine ⟨?_, hsorted, ?_, formatLine_eq it _, hs, by rw [hs], ?_⟩
  · rw [fetchTags_healthy db _ h]
  · rw [fetchTags_healthy db _ h]
    exact List.perm_insertionSort _ _
  · intro hl
    refine List.Pairwise.imp_of_mem ?_ hsorted
    intro a b ha hb hab
    show lowerASCII a ≤ lowerASCII b
    rw [hl a ha, hl b hb]
    exact hab

/-- Claim C6, witness: the paper whose tags were inserted as b, a renders its tag part as
`[a, b]`, in alphabetical order, the same line as when they were inserted as a, b. -/
theorem fetchTags_order_invariant_witness :
    (fetchTags tagStoreBA (go "p1")).1.1 = [go "a", go "b"] ∧
      formatLine exampleRow (fetchTags tagStoreBA (go "p1")).1.1 =
        go "- [T](p1.md) - X (2022) [a, b]\n" ∧
      formatLine exampleRow (fetchTags tagStoreAB (go "p1")).1.1 =
        formatLine exampleRow (fetchTags tagStoreBA (go "p1")).1.1 ∧
      (fetchTags tagStoreBA (go "p1")).1.1.Pairwise alphabeticalLE :=
  ⟨by decide, by decide,
    (fetchTags_order_invariant tagStoreBA tagStoreAB exampleRow rfl rfl
      (by decide)).2.2.2.2.2.1,
    (fetchTags_order_invariant tagStoreBA tagStoreAB exampleRow rfl rfl
      (by decide)).2.2.2.2.2.2 (by decide)⟩

/-! ## Query errors during `rebuild` -/

theorem Errorf_generate (e : GoError) :
    Errorf "failed to generate index: %w" [] e =
      .wrap (go "failed to generate index: " ++ e.Error) e := by
  have h : Sprintf "failed to generate index: %w" [Arg.w e] =
      go "failed to generate index: " ++ (e.Error ++ []) := rfl
  rw [List.append_nil] at h
  simp only [Errorf, List.nil_append, h]

/-- Claim C7, counterexample: in a store whose tag query for the only paper is refused,
`fetchTags` returns that error, but `ExportIndex` returns no error and a full document
whose line has lost the tag, and `runRebuild` returns no error and writes that document to
the index file. -/
theorem tag_fetch_failure_counterexample :
    (fetchTags (fetchItems tagFaultStore (go "paper")).2 (go "p1")).1 =
        ([], some (.mk (go "database is locked"))) ∧
      (ExportIndex tagFaultStore).1 =
        (go "# Research Index\n\n## Papers\n- [T](p1.md) - X (2022) []\n\n## Blog Posts\n\n",
          none) ∧
      (runRebuild exampleLib ⟨go "research"⟩ ⟨fun _ => false⟩ (go "")
          (exampleWorld tagFaultStore)).1 = none ∧
      (runRebuild exampleLib ⟨go "research"⟩ ⟨fun _ => false⟩ (go "")
          (exampleWorld tagFaultStore)).2.fs.files =
        [(go "research/_INDEX.md",
          go "# Research Index\n\n## Papers\n- [T](p1.md) - X (2022) []\n\n## Blog Posts\n\n")] := by
  decide

/-- Claim C7, amended: for every store state, if the paper fetch or the article fetch
fails, `ExportIndex` returns that error together with empty content, and whenever
`ExportIndex` returns an error `runRebuild` returns an error without writing the index file,
namely the error wrapped as `failed to generate index: ...` once the output directory has
been made.  A failing tag fetch does not abort: when both item fetches succeed `ExportIndex`
returns no error. -/
theorem rebuild_aborts_on_item_fetch_error (lib : Lib) (cfg : Config) (opts : OutputOptions)
    (outFile : GoString) (w : World) :
    (∀ e, (fetchItems w.db (go "paper")).1.2 = some e →
        (ExportIndex w.db).1 = (go "", some e)) ∧
      ((fetchItems w.db (go "paper")).1.2 = none →
        ∀ e, (fetchItems
            (renderItems (fetchItems w.db (go "paper")).2 (fetchItems w.db (go "paper")).1.1
              (go "# Research Index\n\n" ++ go "## Papers\n")).2 (go "article")).1.2 = some e →
          (ExportIndex w.db).1 = (go "", some e)) ∧
      (∀ e, (ExportIndex w.db).1.2 = some e →
        (ExportIndex w.db).1.1 = go "" ∧
          (runRebuild lib cfg opts outFile w).1 ≠ none ∧
          (runRebuild lib cfg opts outFile w).2.fs.files = w.fs.files ∧
          ((w.fs.MkdirAll (lib.filepathDir (lib.ExpandPath
              (if outFile = go "" then lib.filepathJoin cfg.ResearchRoot (go "_INDEX.md")
                else outFile)))).1 = none →
            (runRebuild lib cfg opts outFile w).1 =
              some (.wrap (go "failed to generate index: " ++ e.Error) e))) ∧
      ((fetchItems w.db (go "paper")).1.2 = none →
        (fetchItems
            (renderItems (fetchItems w.db (go "paper")).2 (fetchItems w.db (go "paper")).1.1
              (go "# Research Index\n\n" ++ go "## Papers\n")).2 (go "article")).1.2 = none →
        (ExportIndex w.db).1.2 = none) := by
  refine ⟨?_, ?_, ?_, ?_⟩
  · intro e he
    simp only [ExportIndex, he]
  · intro hp e he
    simp only [ExportIndex, hp, he]
  · intro e he
    have hc : (ExportIndex w.db).1.1 = go "" := by
      revert he
      unfold ExportIndex
      simp only
      split
      · intro _; rfl
      · split
        · intro _; rfl
        · intro h; exact absurd h (by simp)
    have hfiles : ∀ p, (w.fs.MkdirAll p).2.files = w.fs.files := by
      intro p
      unfold FS.MkdirAll
      split <;> rfl
    refine ⟨hc, ?_, ?_, ?_⟩
    · unfold runRebuild
      simp only [he]
      split <;> simp
    · unfold runRebuild
      simp only [he]
      split
      · exact hfiles _
      · exact hfiles _
    · intro hmk
      unfold runRebuild
      simp only [he, hmk, Errorf_generate]
  · intro hp ha
    simp only [ExportIndex, hp, ha]

/-- Claim C7, witness: in a store whose paper query is refused `ExportIndex` returns the
error with empty content and `runRebuild` returns it wrapped and writes no file; a refused
article query gives the same result of `ExportIndex`. -/
theorem rebuild_aborts_on_item_fetch_error_witness :
    (ExportIndex itemFaultStore).1 = (go "", some (.mk (go "database is locked"))) ∧
      (ExportIndex articleFaultStore).1 = (go "", some (.mk (go "database is locked"))) ∧
      (runRebuild exampleLib ⟨go "research"⟩ ⟨fun _ => false⟩ (go "")
          (exampleWorld itemFaultStore)).1 =
        some (.wrap (go "failed to generate index: database is locked")
          (.mk (go "database is locked"))) ∧
      (runRebuild exampleLib ⟨go "research"⟩ ⟨fun _ => false⟩ (go "")
          (exampleWorld itemFaultStore)).2.fs.files = [] :=
  ⟨(rebuild_aborts_on_item_fetch_error exampleLib ⟨go "research"⟩ ⟨fun _ => false⟩ (go "")
      (exampleWorld itemFaultStore)).1 _ (by decide),
    (rebuild_aborts_on_item_fetch_error exampleLib ⟨go "research"⟩ ⟨fun _ => false⟩ (go "")
      (exampleWorld articleFaultStore)).2.1 (by decide) _ (by decide),
    (((rebuild_aborts_on_item_fetch_error exampleLib ⟨go "research"⟩ ⟨fun _ => false⟩ (go "")
      (exampleWorld itemFaultStore)).2.2.1 (.mk (go "database is locked"))
        (by decide)).2.2.2 (by decide)).trans (by decide),
    ((rebuild_aborts_on_item_fetch_error exampleLib ⟨go "research"⟩ ⟨fun _ => false⟩ (go "")
      (exampleWorld itemFaultStore)).2.2.1 (.mk (go "database is locked"))
        (by decide)).2.2.1⟩

/-! ## The counts of `stats` -/

theorem countFails_eq (db : DB) (n : Nat) :
    countFails db n =
      match db.fault n with
      | .healthy => false
      | .query _ => true
      | .scan k _ => decide (k = 0)
      | .iter k _ => decide (k = 0) := by
  unfold countFails DB.QueryRowScan DB.Query
  cases h : db.fault n with
  | healthy => simp [Rows.ofFault, h]
  | query e => simp [Rows.ofFault, h]
  | scan k e => cases k <;> simp [Rows.ofFault, h]
  | iter k e => cases k <;> simp [Rows.ofFault, h]

theorem QueryRowScan_val (db : DB) (v : Int) :
    (db.QueryRowScan [v] 0).1.1 = if countFails db db.calls then 0 else v := by
  unfold countFails DB.QueryRowScan DB.Query
  cases h : db.fault db.calls with
  | healthy => simp [Rows.ofFault]
  | query e => simp [Rows.ofFault]
  | scan n e => cases n <;> simp [Rows.ofFault]
  | iter n e => cases n <;> simp [Rows.ofFault]

theorem QueryRowScan_db (db : DB) (result : List Int) (dest : Int) :
    (db.QueryRowScan result dest).2 = db.after 1 := by
  unfold DB.QueryRowScan DB.Query DB.after
  cases Rows.ofFault result (db.fault db.calls) with
  | error e => rfl
  | ok rows =>
    show (match rows.pending with
      | [] => ((dest, some (rows.err.getD ErrNoRows)), _)
      | .error e :: _ => ((dest, some e), _)
      | .ok v :: _ => ((v, none), _)).2 = _
    split <;> rfl

/-- Claim C8: for every store, `runStats` reports four independent counts: papers = number
of items of type `paper`, articles = number of items of type `article`, total = number of
all items, tags = number of all tags; each count whose query fails is reported as 0 without
affecting the other three, and no query failure makes the command return an error: with a
JSON or YAML format it returns what the encoder returns for these counts, with the quiet
and the table format it returns no error, the table listing the four counts in decimal. -/
theorem runStats_spec (lib : Lib) (opts : OutputOptions) (w : World) :
    (opts.Is .OutputJSON = true →
        runStats lib opts w =
          ((lib.encode .OutputJSON (.stats (specStats w.db))).2,
            { w with db := w.db.after 4,
                     stdout := w.stdout ++
                       (lib.encode .OutputJSON (.stats (specStats w.db))).1 })) ∧
      (opts.Is .OutputJSON = false → opts.Is .OutputYAML = true →
        runStats lib opts w =
          ((lib.encode .OutputYAML (.stats (specStats w.db))).2,
            { w with db := w.db.after 4,
                     stdout := w.stdout ++
                       (lib.encode .OutputYAML (.stats (specStats w.db))).1 })) ∧
      (opts.Is .OutputJSON = false → opts.Is .OutputYAML = false →
        opts.Is .OutputQuiet = true →
        runStats lib opts w = (none, { w with db := w.db.after 4 })) ∧
      (opts.Is .OutputJSON = false → opts.Is .OutputYAML = false →
        opts.Is .OutputQuiet = false →
        runStats lib opts w =
          (none, { w with db := w.db.after 4,
                          stdout := w.stdout ++
                            go "Papers:   " ++ go (toString (specStats w.db).Papers) ++
                            go "\nArticles: " ++ go (toString (specStats w.db).Articles) ++
                            go "\nTotal:    " ++ go (toString (specStats w.db).Total) ++
                            go "\nTags:     " ++ go (toString (specStats w.db).Tags) ++
                            go "\n" })) := by
  have key : ∀ k (v : Int), ((w.db.after k).QueryRowScan [v] 0).1.1 =
      if countFails w.db (w.db.calls + k) then 0 else v := fun k v =>
    QueryRowScan_val (w.db.after k) v
  have k0 : ∀ v : Int, (w.db.QueryRowScan [v] 0).1.1 =
      if countFails w.db w.db.calls then 0 else v := fun v => QueryRowScan_val w.db v
  have a1 : ∀ k j, (w.db.after k).after j = w.db.after (k + j) := fun k j => by
    simp [DB.after, Nat.add_assoc]
  have c1 : ∀ k typ, countItemsOfType (w.db.after k) typ = countItemsOfType w.db typ :=
    fun _ _ => rfl
  have c2 : ∀ k, countItems (w.db.after k) = countItems w.db := fun _ => rfl
  have c3 : ∀ k, countTags (w.db.after k) = countTags w.db := fun _ => rfl
  have run : runStats lib opts w =
      (if opts.Is .OutputJSON = true then
        ((lib.encode .OutputJSON (.stats (specStats w.db))).2,
          { w with db := w.db.after 4,
                   stdout := w.stdout ++
                     (lib.encode .OutputJSON (.stats (specStats w.db))).1 })
      else if opts.Is .OutputYAML = true then
        ((lib.encode .OutputYAML (.stats (specStats w.db))).2,
          { w with db := w.db.after 4,
                   stdout := w.stdout ++
                     (lib.encode .OutputYAML (.stats (specStats w.db))).1 })
      else if opts.Is .OutputQuiet = true then (none, { w with db := w.db.after 4 })
      else
        (none, { w with db := w.db.after 4,
                        stdout := w.stdout ++
                          Sprintf "Papers:   %d\n" [.d (specStats w.db).Papers] ++
                          Sprintf "Articles: %d\n" [.d (specStats w.db).Articles] ++
                          Sprintf "Total:    %d\n" [.d (specStats w.db).Total] ++
                          Sprintf "Tags:     %d\n" [.d (specStats w.db).Tags] })) := by
    unfold runStats
    simp only [QueryRowScan_db, k0, a1, key, c1, c2, c3]
    rfl
  have s1 : ∀ x : Int, Sprintf "Papers:   %d\n" [.d x] =
      go "Papers:   " ++ (go (toString x) ++ go "\n") := fun _ => rfl
  have s2 : ∀ x : Int, Sprintf "Articles: %d\n" [.d x] =
      go "Articles: " ++ (go (toString x) ++ go "\n") := fun _ => rfl
  have s3 : ∀ x : Int, Sprintf "Total:    %d\n" [.d x] =
      go "Total:    " ++ (go (toString x) ++ go "\n") := fun _ => rfl
  have s4 : ∀ x : Int, Sprintf "Tags:     %d\n" [.d x] =
      go "Tags:     " ++ (go (toString x) ++ go "\n") := fun _ => rfl
  refine ⟨fun h => ?_, fun h1 h2 => ?_, fun h1 h2 h3 => ?_, fun h1 h2 h3 => ?_⟩
  · rw [run, if_pos h]
  · rw [run, if_neg (by simp [h1]), if_pos h2]
  · rw [run, if_neg (by simp [h1]), if_neg (by simp [h2]), if_pos h3]
  · rw [run, if_neg (by simp [h1]), if_neg (by simp [h2]), if_neg (by simp [h3])]
    simp only [s1, s2, s3, s4, List.append_assoc]
    rfl

/-- Claim C8, witness: for a store with 3 papers, 2 articles, 1 item of another type and 4
tags the report is papers 3, articles 2, total 6, tags 4; when the article query fails the
report is papers 3, articles 0, total 6, tags 4, and the command still returns no error. -/
theorem runStats_spec_witness :
    specStats (statsStore fun _ => false) =
        { Papers := 3, Articles := 2, Total := 6, Tags := 4 } ∧
      (runStats exampleLib ⟨fun _ => false⟩ (exampleWorld (statsStore fun _ => false))).1 =
        none ∧
      (runStats exampleLib ⟨fun _ => false⟩
          (exampleWorld (statsStore fun _ => false))).2.stdout =
        go "Papers:   3\nArticles: 2\nTotal:    6\nTags:     4\n" ∧
      (runStats exampleLib ⟨fun _ => false⟩
          (exampleWorld (statsStore fun n => decide (n = 1)))).1 = none ∧
      (runStats exampleLib ⟨fun _ => false⟩
          (exampleWorld (statsStore fun n => decide (n = 1)))).2.stdout =
        go "Papers:   3\nArticles: 0\nTotal:    6\nTags:     4\n" :=
  ⟨by decide,
    congrArg Prod.fst ((runStats_spec exampleLib ⟨fun _ => false⟩
      (exampleWorld (statsStore fun _ => false))).2.2.2 rfl rfl rfl),
    (congrArg (fun r => r.2.stdout) ((runStats_spec exampleLib ⟨fun _ => false⟩
      (exampleWorld (statsStore fun _ => false))).2.2.2 rfl rfl rfl)).trans (by decide),
    congrArg Prod.fst ((runStats_spec exampleLib ⟨fun _ => false⟩
      (exampleWorld (statsStore fun n => decide (n = 1)))).2.2.2 rfl rfl rfl),
    (congrArg (fun r => r.2.stdout) ((runStats_spec exampleLib ⟨fun _ => false⟩
      (exampleWorld (statsStore fun n => decide (n = 1)))).2.2.2 rfl rfl rfl)).trans
      (by decide)⟩

end ArcIndex
